import Mathlib

/-!
Verification development for the HearClear retrieval-and-extraction engine
(`src/main.py`, `src/ollama_integration.py`, `src/whisper_transcription.py`).

The Python source is shallowly embedded: strings are `List Char` (wrapped in
`String` at API boundaries), Python floats are modelled as `ℚ`, Python ints as
`ℤ`, raised exceptions as `Option`/`Except` failures.  Each definition mirrors
one Python function or inline code block; the doc comment names its origin.
Numeric-literal scanning is split into a character-level phase producing
integer data (`FloatLit`, `TsParse`) and an evaluation phase into `ℚ`
(`FloatLit.val`, `TsParse.val`); composing the two phases is exactly the
source's computation, and the split lets concrete instances evaluate.

Known modelling bounds (none affect the theorems below, which either use
concrete inputs or condition on the embedded functions' outcomes):
* `pyInt` / `pyFloat` model CPython `int(str)` / `float(str)` over ASCII
  decimal literals (optional sign, digits, fraction, exponent); exotic
  accepted spellings (`"inf"`, `"nan"`, digit-group underscores, non-ASCII
  digits) are rejected by the model.
* character case folding and whitespace sets are ASCII.
-/

namespace HearClear

/-! ## Character and string primitives -/

/-- Whitespace characters recognised by Python `str.strip()` / `str.split()`
(ASCII subset). -/
def isSpaceChar (c : Char) : Bool :=
  c = ' ' || c = '\t' || c = '\n' || c = '\x0d' || c = '\x0b' || c = '\x0c'

/-- Model of Python `str.strip()` (both ends). -/
def stripWs (l : List Char) : List Char :=
  ((l.dropWhile isSpaceChar).reverse.dropWhile isSpaceChar).reverse

/-- Model of Python `str.lower()` (ASCII case folding). -/
def toLowerL (l : List Char) : List Char := l.map Char.toLower

/-- Boolean check that `p` is a literal first segment of `l`. -/
def isPrefixL : List Char → List Char → Bool
  | [], _ => true
  | _ :: _, [] => false
  | a :: as, b :: bs => a = b && isPrefixL as bs

/-- Model of Python's substring operator `pat in s` for strings. -/
def isSubstrL : List Char → List Char → Bool
  | pat, [] => pat.isEmpty
  | pat, c :: rest => isPrefixL pat (c :: rest) || isSubstrL pat rest

/-- Fuel-metered loop for Python `str.replace(pat, rep)`:
left-to-right, non-overlapping, no rescanning of the replacement. -/
def replaceAllAux (pat rep : List Char) : ℕ → List Char → List Char
  | 0, s => s
  | f + 1, s =>
    match s with
    | [] => []
    | c :: rest =>
      if pat ≠ [] ∧ isPrefixL pat s then
        rep ++ replaceAllAux pat rep f (s.drop pat.length)
      else
        c :: replaceAllAux pat rep f rest

/-- Model of Python `s.replace(pat, rep)` for non-empty `pat`. -/
def replaceAllL (s pat rep : List Char) : List Char :=
  replaceAllAux pat rep s.length s

/-- Accumulator loop for whitespace splitting. -/
def splitWsAux : List Char → List Char → List (List Char)
  | [], cur => if cur.isEmpty then [] else [cur.reverse]
  | c :: r, cur =>
    if isSpaceChar c then
      if cur.isEmpty then splitWsAux r [] else cur.reverse :: splitWsAux r []
    else
      splitWsAux r (c :: cur)

/-- Model of Python `str.split()` with no argument: split on whitespace runs,
dropping empty tokens. -/
def splitWsL (l : List Char) : List (List Char) := splitWsAux l []

/-- Model of Python `str.split(sep)` for a single-character separator:
keeps empty fields, `"".split(c) = [""]`. -/
def splitOnCharL (sep : Char) : List Char → List (List Char)
  | [] => [[]]
  | c :: rest =>
    if c = sep then
      [] :: splitOnCharL sep rest
    else
      match splitOnCharL sep rest with
      | [] => [[c]]
      | f :: fs => (c :: f) :: fs

/-! ## Decimal digits -/

/-- Numeric value of a list of decimal digit characters, most significant
first (value of `""` is `0`; callers guard non-emptiness). -/
def digitsVal (l : List Char) : ℕ :=
  l.foldl (fun a c => 10 * a + (c.toNat - 48)) 0

/-- Decimal digit characters of `n`, most significant first; the fuel is the
structural-recursion budget and any `fuel > 0` with `n < 10^fuel` computes
the true digits. -/
def natDigitsAux : ℕ → ℕ → List Char
  | 0, _ => []
  | f + 1, n =>
    if n < 10 then [Nat.digitChar n]
    else natDigitsAux f (n / 10) ++ [Nat.digitChar (n % 10)]

/-- Decimal digit characters of `n` (e.g. `natDigits 507 = ['5','0','7']`). -/
def natDigits (n : ℕ) : List Char := natDigitsAux (n + 1) n

/-- Decimal rendering of an integer, as Python `str(i)` yields. -/
def intDigits (i : ℤ) : List Char :=
  if i < 0 then '-' :: natDigits i.natAbs else natDigits i.natAbs

/-- Left-pad a digit string with `'0'` to width `w`, as Python `f"{n:0wd}"`. -/
def padZero (w : ℕ) (l : List Char) : List Char :=
  List.replicate (w - l.length) '0' ++ l

/-! ## Python numeric-literal conversions -/

/-- Model of Python `int(s)` on ASCII decimal literals: strip whitespace,
optional sign, then a non-empty run of digits; anything else raises
`ValueError`, modelled as `none`. -/
def pyInt (l : List Char) : Option ℤ :=
  let l := stripWs l
  match l with
  | '-' :: r =>
    if !r.isEmpty && r.all Char.isDigit then some (-(digitsVal r : ℤ)) else none
  | '+' :: r =>
    if !r.isEmpty && r.all Char.isDigit then some (digitsVal r) else none
  | _ =>
    if !l.isEmpty && l.all Char.isDigit then some (digitsVal l) else none

/-- The character-level content of a Python float literal: sign, integer-part
value, fraction-part value and digit count, signed exponent. -/
structure FloatLit where
  sgn : ℤ
  ip : ℕ
  fp : ℕ
  fplen : ℕ
  ex : ℤ
deriving DecidableEq

/-- Numeric value of a scanned float literal. -/
def FloatLit.val (f : FloatLit) : ℚ :=
  (f.sgn : ℚ) * ((f.ip : ℚ) + (f.fp : ℚ) / (10 : ℚ) ^ f.fplen) * (10 : ℚ) ^ f.ex

/-- Split an optional leading sign, returned as `1` or `-1`. -/
def readSignZ : List Char → ℤ × List Char
  | [] => (1, [])
  | c :: r =>
    if c = '-' then (-1, r) else if c = '+' then (1, r) else (1, c :: r)

/-- Scan the `[eE][+-]?digits` exponent tail; `[]` means exponent `0`. -/
def readExponent : List Char → Option ℤ
  | [] => some 0
  | e :: rest =>
    if e = 'e' || e = 'E' then
      let (sgnE, rest) := readSignZ rest
      if !rest.isEmpty && rest.all Char.isDigit then
        some (sgnE * (digitsVal rest : ℤ))
      else none
    else none

/-- Character-level scan of a Python float literal: strip whitespace, optional
sign, digits with optional fractional part (at least one digit overall) and
optional exponent. -/
def pyFloatParts (l : List Char) : Option FloatLit :=
  let l := stripWs l
  let (sgn, l) := readSignZ l
  let ip := l.takeWhile Char.isDigit
  let rest := l.dropWhile Char.isDigit
  match rest with
  | '.' :: rest2 =>
    let fp := rest2.takeWhile Char.isDigit
    let rest3 := rest2.dropWhile Char.isDigit
    if ip.isEmpty && fp.isEmpty then none
    else
      match readExponent rest3 with
      | some ex => some ⟨sgn, digitsVal ip, digitsVal fp, fp.length, ex⟩
      | none => none
  | _ =>
    if ip.isEmpty then none
    else
      match readExponent rest with
      | some ex => some ⟨sgn, digitsVal ip, 0, 0, ex⟩
      | none => none

/-- Model of Python `float(s)` on ASCII decimal literals.  `float("inf")`-style
spellings are outside the model and map to `none`. -/
def pyFloat (l : List Char) : Option ℚ :=
  (pyFloatParts l).map FloatLit.val

/-! ## The inline timestamp conversion -/

/-- Shape of one run of the inline timestamp conversion: which field-count
branch was taken, with the scanned numeric components. -/
inductive TsParse where
  | fields3 (h m : ℤ) (sec : FloatLit)
  | fields2 (m : ℤ) (sec : FloatLit)
  | otherFieldCount
deriving DecidableEq

/-- Seconds value computed by the source for each branch:
`int(p0)*3600 + int(p1)*60 + float(p2)` for three fields,
`int(p0)*60 + float(p1)` for two, and the untouched initial `0` otherwise. -/
def TsParse.val : TsParse → ℚ
  | .fields3 h m sec => (h : ℚ) * 3600 + (m : ℚ) * 60 + sec.val
  | .fields2 m sec => (m : ℚ) * 60 + sec.val
  | .otherFieldCount => 0

/-- Character-level phase of the inline timestamp-to-seconds conversion that
appears verbatim at `main.py` `query_transcript` (lines 370-384), `main.py`
`query_transcript_audio` (lines 556-572) and `ollama_integration.py`
`find_and_extract_audio_answer` (lines 226-241):

    start_time = 0
    start_parts = segment["start"].split(":")
    if len(start_parts) == 3:
        start_time = int(p0)*3600 + int(p1)*60 + float(p2)
    elif len(start_parts) == 2:
        start_time = int(p0)*60 + float(p1)

`none` is a raised `ValueError` from `int`/`float`. -/
def parse_timestamp_shape (s : String) : Option TsParse :=
  let parts := splitOnCharL ':' s.toList
  if parts.length = 3 then
    match pyInt (parts.getD 0 []), pyInt (parts.getD 1 []), pyFloatParts (parts.getD 2 []) with
    | some h, some m, some sec => some (.fields3 h m sec)
    | _, _, _ => none
  else if parts.length = 2 then
    match pyInt (parts.getD 0 []), pyFloatParts (parts.getD 1 []) with
    | some m, some sec => some (.fields2 m sec)
    | _, _ => none
  else
    some .otherFieldCount

/-- The inline timestamp conversion itself: `some q` is a computed seconds
value (including the silent default `0` when the field count is neither 2 nor
3); `none` is a raised `ValueError`. -/
def parse_timestamp_inline (s : String) : Option ℚ :=
  (parse_timestamp_shape s).map TsParse.val

/-- Evaluation helper: a concrete shape plus a closed-form value give a
closed-form run of `parse_timestamp_inline`. -/
theorem parse_timestamp_inline_eq (s : String) (t : TsParse) (v : ℚ)
    (h1 : parse_timestamp_shape s = some t) (h2 : TsParse.val t = v) :
    parse_timestamp_inline s = some v := by
  simp [parse_timestamp_inline, h1, h2]

/-- Failure transfers from the shape phase to the conversion. -/
theorem parse_timestamp_inline_none {s : String}
    (h : parse_timestamp_shape s = none) : parse_timestamp_inline s = none := by
  simp [parse_timestamp_inline, h]

example : parse_timestamp_shape "0:00:05" = some (.fields3 0 0 ⟨1, 5, 0, 0, 0⟩) := by decide
example : parse_timestamp_inline "0:00:05" = some 5 :=
  parse_timestamp_inline_eq _ (.fields3 0 0 ⟨1, 5, 0, 0, 0⟩) _ (by decide)
    (by norm_num [TsParse.val, FloatLit.val])
example : parse_timestamp_inline "1:02:03.5" = some (3723 + 1 / 2) :=
  parse_timestamp_inline_eq _ (.fields3 1 2 ⟨1, 3, 5, 1, 0⟩) _ (by decide)
    (by norm_num [TsParse.val, FloatLit.val])
example : parse_timestamp_inline "2:30" = some 150 :=
  parse_timestamp_inline_eq _ (.fields2 2 ⟨1, 30, 0, 0, 0⟩) _ (by decide)
    (by norm_num [TsParse.val, FloatLit.val])
example : parse_timestamp_inline "5" = some 0 :=
  parse_timestamp_inline_eq _ .otherFieldCount _ (by decide) (by norm_num [TsParse.val])
example : parse_timestamp_inline "a:b" = none :=
  parse_timestamp_inline_none (by decide)
example : pyFloatParts "1e2".toList = some ⟨1, 1, 0, 0, 2⟩ := by decide
example : pyInt " 42 ".toList = some 42 := by decide

/-! ## Python `int()` truncation and `str(timedelta(...))` formatting -/

/-- Model of Python `int(x)` on a float: truncation toward zero. -/
def qtrunc (q : ℚ) : ℤ := if 0 ≤ q then ⌊q⌋ else -⌊-q⌋

/-- Round to the nearest integer, ties to the even neighbour — the rounding
CPython applies to fractional microseconds in `timedelta(seconds=...)`. -/
def roundHalfEven (q : ℚ) : ℤ :=
  let f := ⌊q⌋
  if q - (f : ℚ) < 1 / 2 then f
  else if (1 : ℚ) / 2 < q - (f : ℚ) then f + 1
  else if f % 2 = 0 then f else f + 1

/-- Rendering of a `timedelta` of `u` microseconds, as CPython
`timedelta.__str__` produces: `divmod` normalisation into days (floor
division), then `"H:MM:SS"`, a `".ffffff"` suffix when the microsecond part
is non-zero, and a `"D day(s), "` prefix when the day part is non-zero. -/
def formatMicro (u : ℤ) : List Char :=
  let days := Int.fdiv u 86400000000
  let rem := (Int.fmod u 86400000000).toNat
  let us := rem % 1000000
  let secs := rem / 1000000
  let hh := secs / 3600
  let mm := (secs / 60) % 60
  let ss := secs % 60
  let base := natDigits hh ++ ':' :: padZero 2 (natDigits mm) ++ ':' :: padZero 2 (natDigits ss)
  let base := if us ≠ 0 then base ++ '.' :: padZero 6 (natDigits us) else base
  if days ≠ 0 then
    intDigits days ++ (if days = 1 ∨ days = -1 then " day, ".toList else " days, ".toList) ++ base
  else base

/-- Model of Python `str(timedelta(seconds=t))` as used by
`whisper_transcription.py` `transcribe_with_timestamps` (lines 56-61) to
render each raw segment's `start`/`end`: the seconds are converted to
microseconds with round-half-even, then rendered by `timedelta.__str__`. -/
def formatTimedelta (t : ℚ) : String :=
  String.mk (formatMicro (roundHalfEven (t * 1000000)))

/-- Rounding an exact integer is the identity. -/
theorem roundHalfEven_intCast (n : ℤ) : roundHalfEven (n : ℚ) = n := by
  simp [roundHalfEven]

example : formatMicro 5000000 = "0:00:05".toList := by decide
example : formatMicro 5500000 = "0:00:05.500000".toList := by decide
example : formatMicro 3723500000 = "1:02:03.500000".toList := by decide
example : formatMicro 86400000000 = "1 day, 0:00:00".toList := by decide

/-! ## Data model -/

/-- A raw Whisper segment as `result["segments"]` delivers it: numeric
start/end seconds and text. -/
structure RawSegment where
  id : ℤ
  rstart : ℚ
  rend : ℚ
  rtext : String

/-- A transcript segment as stored in the transcript JSON: `id`, clock-string
`start`/`end` timestamps and `text`.  The Python dict key `"end"` is a Lean
keyword, so the field is named `stop`. -/
structure Segment where
  id : ℤ
  start : String
  stop : String
  text : String
deriving DecidableEq

/-- Model of the segment-formatting loop of `transcribe_with_timestamps`
(`whisper_transcription.py` lines 54-61): timestamps rendered with
`str(timedelta(seconds=...))`, text stripped. -/
def transcribe_segment (r : RawSegment) : Segment :=
  ⟨r.id, formatTimedelta r.rstart, formatTimedelta r.rend, String.mk (stripWs r.rtext.toList)⟩

/-- Transcript payload as loaded from the transcript JSON file; `segments` is
`none` when the `"segments"` key is absent. -/
structure TranscriptData where
  segments : Option (List Segment)

/-! ## JSON values and `json.loads`

Model of the strict CPython `json` scanner as `ollama_integration.py` line 148
invokes it.  Out-of-model inputs that map to a parse failure here although
CPython accepts them: `NaN`/`Infinity` constants (not representable in `ℚ`)
and `\uXXXX` string escapes. -/

/-- A parsed JSON value. -/
inductive JValue where
  | jnull
  | jbool (b : Bool)
  | jint (n : ℤ)
  | jfloat (q : ℚ)
  | jstr (s : List Char)
  | jarr (xs : List JValue)
  | jobj (kvs : List (List Char × JValue))

/-- JSON inter-token whitespace (space, tab, newline, carriage return). -/
def jws (l : List Char) : List Char :=
  l.dropWhile (fun c => c = ' ' || c = '\t' || c = '\n' || c = '\x0d')

/-- Single-character JSON string escapes (the `\uXXXX` form is out of the
model). -/
def jescape (c : Char) : Option Char :=
  if c = '"' then some '"'
  else if c = '\\' then some '\\'
  else if c = '/' then some '/'
  else if c = 'b' then some '\x08'
  else if c = 'f' then some '\x0c'
  else if c = 'n' then some '\n'
  else if c = 'r' then some '\x0d'
  else if c = 't' then some '\t'
  else none

/-- Scan a JSON string body after the opening quote; returns the content and
the input following the closing quote. -/
def jstringAux : List Char → Option (List Char × List Char)
  | [] => none
  | '"' :: r => some ([], r)
  | '\\' :: e :: r =>
    match jescape e with
    | some c => (jstringAux r).map (fun p => (c :: p.1, p.2))
    | none => none
  | '\\' :: [] => none
  | c :: r => (jstringAux r).map (fun p => (c :: p.1, p.2))

/-- Scan a JSON number with the scanner's regex
`-?(0|[1-9]\d*)(\.\d+)?([eE][+-]?\d+)?`: each optional group is consumed only
when fully present; an integer literal yields `jint`, otherwise `jfloat`. -/
def jnumber (l : List Char) : Option (JValue × List Char) :=
  let sl := match l with
    | '-' :: r => ((-1 : ℤ), r)
    | _ => ((1 : ℤ), l)
  let sgn := sl.1
  let l1 := sl.2
  let ipr : List Char × List Char := match l1 with
    | '0' :: r => (['0'], r)
    | _ => (l1.takeWhile Char.isDigit, l1.dropWhile Char.isDigit)
  let ip := ipr.1
  let r2 := ipr.2
  if ip.isEmpty then none
  else
    let fpr : List Char × List Char := match r2 with
      | '.' :: r3 =>
        if (r3.takeWhile Char.isDigit).isEmpty then ([], r2)
        else (r3.takeWhile Char.isDigit, r3.dropWhile Char.isDigit)
      | _ => ([], r2)
    let fp := fpr.1
    let r4 := fpr.2
    let exr : Option ℤ × List Char := match r4 with
      | e :: r5 =>
        if e = 'e' || e = 'E' then
          let se := readSignZ r5
          let ds := se.2.takeWhile Char.isDigit
          if ds.isEmpty then (none, r4)
          else (some (se.1 * (digitsVal ds : ℤ)), se.2.dropWhile Char.isDigit)
        else (none, r4)
      | _ => (none, r4)
    match fp, exr.1 with
    | [], none => some (.jint (sgn * (digitsVal ip : ℤ)), r4)
    | _, _ =>
      some (.jfloat (FloatLit.val ⟨sgn, digitsVal ip, digitsVal fp, fp.length, exr.1.getD 0⟩),
        exr.2)

/-- Member loop of a JSON object, called after `{` when the object is
non-empty; `pv` parses one value. -/
def jmembersAux (pv : List Char → Option (JValue × List Char)) :
    ℕ → List Char → List (List Char × JValue) →
    Option (List (List Char × JValue) × List Char)
  | 0, _, _ => none
  | f + 1, l, acc =>
    match jws l with
    | '"' :: r =>
      match jstringAux r with
      | none => none
      | some (key, r2) =>
        match jws r2 with
        | ':' :: r3 =>
          match pv r3 with
          | none => none
          | some (v, r4) =>
            match jws r4 with
            | ',' :: r5 => jmembersAux pv f r5 (acc ++ [(key, v)])
            | '\x7d' :: r5 => some (acc ++ [(key, v)], r5)
            | _ => none
        | _ => none
    | _ => none

/-- Element loop of a JSON array, called after `[` when the array is
non-empty. -/
def jelemsAux (pv : List Char → Option (JValue × List Char)) :
    ℕ → List Char → List JValue → Option (List JValue × List Char)
  | 0, _, _ => none
  | f + 1, l, acc =>
    match pv l with
    | none => none
    | some (v, r) =>
      match jws r with
      | ',' :: r2 => jelemsAux pv f r2 (acc ++ [v])
      | ']' :: r2 => some (acc ++ [v], r2)
      | _ => none

/-- One JSON value: skip whitespace, then constant, string, object, array or
number; returns the value and the unconsumed input. -/
def jparse : ℕ → List Char → Option (JValue × List Char)
  | 0, _ => none
  | f + 1, l =>
    match jws l with
    | 'n' :: 'u' :: 'l' :: 'l' :: r => some (.jnull, r)
    | 't' :: 'r' :: 'u' :: 'e' :: r => some (.jbool true, r)
    | 'f' :: 'a' :: 'l' :: 's' :: 'e' :: r => some (.jbool false, r)
    | '"' :: r => (jstringAux r).map (fun p => (.jstr p.1, p.2))
    | '\x7b' :: r =>
      match jws r with
      | '\x7d' :: r2 => some (.jobj [], r2)
      | _ => (jmembersAux (fun l2 => jparse f l2) f r []).map (fun p => (.jobj p.1, p.2))
    | '[' :: r =>
      match jws r with
      | ']' :: r2 => some (.jarr [], r2)
      | _ => (jelemsAux (fun l2 => jparse f l2) f r []).map (fun p => (.jarr p.1, p.2))
    | l2 => jnumber l2

/-- Model of Python `json.loads`: parse one value and require only whitespace
after it (`"Extra data"` otherwise); `none` is a raised
`json.JSONDecodeError`. -/
def json_loads (l : List Char) : Option JValue :=
  match jparse (l.length + 1) l with
  | some (v, rest) => if (jws rest).isEmpty then some v else none
  | none => none

/-- Dictionary lookup on a parsed object: CPython dict semantics, the last
binding of a duplicated key wins. -/
def jlookup (kvs : List (List Char × JValue)) (k : String) : Option JValue :=
  (kvs.reverse.find? (fun kv => kv.1 = k.toList)).map (fun kv => kv.2)

example : json_loads "\x7b\x7d".toList = some (.jobj []) := rfl
example : json_loads "".toList = none := rfl
example : json_loads "\x7b\"best_segment_id\": 2\x7d".toList =
    some (.jobj [("best_segment_id".toList, .jint 2)]) := rfl
example : json_loads "[1, 2]".toList = some (.jarr [.jint 1, .jint 2]) := rfl
example : json_loads "\x7b\"a\": null\x7d extra".toList = none := rfl
example : json_loads "\x7b\"a\": true\x7d".toList =
    some (.jobj [("a".toList, .jbool true)]) := rfl
example : jlookup [("a".toList, .jint 1), ("a".toList, .jint 2)] "a" = some (.jint 2) := rfl
example : jlookup [("a".toList, .jint 1)] "b" = none := rfl

/-! ## Keyword matching

Embedding of `WhisperTranscriber.get_segment_by_question`
(`whisper_transcription.py` lines 105-145) and
`OllamaClient._fallback_keyword_matching` (`ollama_integration.py` lines
311-344); the two share their stop-word stripping, keyword filter and
scoring loop verbatim. -/

/-- The stop-word list `question_words` common to both matchers. -/
def question_words : List (List Char) :=
  ["what", "when", "where", "who", "how", "why", "is", "are", "did", "do", "does"].map
    String.toList

/-- The sequential `question_lower.replace(f" {word} ", " ")` loop. -/
def remove_question_words (ql : List Char) : List Char :=
  question_words.foldl (fun s w => replaceAllL s (' ' :: (w ++ [' '])) [' ']) ql

/-- Keyword extraction:
`[k.strip() for k in question_lower.split() if len(k.strip()) > 3]` applied to
the lower-cased, stop-word-stripped question. -/
def extract_keywords (question : String) : List (List Char) :=
  let ql := remove_question_words (toLowerL question.toList)
  (splitWsL ql).filterMap (fun k =>
    let ks := stripWs k
    if ks.length > 3 then some ks else none)

/-- Per-segment score:
`sum(1 for keyword in keywords if keyword in segment_text)` against the
lower-cased segment text. -/
def segment_score (keywords : List (List Char)) (text : String) : ℕ :=
  (keywords.filter (fun k => isSubstrL k (toLowerL text.toList))).length

/-- One iteration of the selection loop common to both matchers: keep the
first segment whose score strictly exceeds the best so far. -/
def match_step (keywords : List (List Char)) (acc : Option Segment × ℕ)
    (seg : Segment) : Option Segment × ℕ :=
  let score := segment_score keywords seg.text
  if score > acc.2 then (some seg, score) else acc

/-- The selection loop common to both matchers, starting from `(None, 0)`. -/
def best_match (keywords : List (List Char)) (segs : List Segment) :
    Option Segment × ℕ :=
  segs.foldl (match_step keywords) (none, 0)

/-- `WhisperTranscriber.get_segment_by_question` on the segment list:
`return best_segment if best_score > 0 else None`.  (The
`transcript_data["segments"]` access that raises `KeyError` on an absent key
is modelled at the call site.) -/
def get_segment_by_question (segments : List Segment) (question : String) :
    Option Segment :=
  let keywords := extract_keywords question
  let bm := best_match keywords segments
  if bm.2 > 0 then bm.1 else none

/-- The dict returned by `find_answer_in_transcript` /
`_fallback_keyword_matching`, flattened: `confidence`, `reasoning` and
`question_analysis` keep the raw JSON values the Python dict would hold. -/
structure FindResult where
  matched_segment : Option Segment
  confidence : JValue
  reasoning : JValue
  question_analysis : JValue
  match_method : String
  original_response : Option String

/-- `OllamaClient._fallback_keyword_matching`: score every segment, report
the best, confidence `best_score / len(keywords)` (Python int `0` when no
keywords), audit strings in the metadata. -/
def fallback_keyword_matching (segments : List Segment) (question : String) :
    FindResult :=
  let keywords := extract_keywords question
  let bm := best_match keywords segments
  { matched_segment := bm.1
    confidence :=
      if keywords.isEmpty then .jint 0
      else .jfloat ((bm.2 : ℚ) / (keywords.length : ℚ))
    reasoning :=
      .jstr ("Matched ".toList ++ natDigits bm.2 ++ " keywords from the question".toList)
    question_analysis :=
      .jstr ("Keywords extracted: ".toList ++ List.intercalate ", ".toList keywords)
    match_method := "keyword_fallback"
    original_response := none }

/-! ## Semantic match adapter -/

/-- First index of `c` in the list, or `none`. -/
def pyFindCharAux (c : Char) : List Char → ℕ → Option ℕ
  | [], _ => none
  | x :: r, i => if x = c then some i else pyFindCharAux c r (i + 1)

/-- Model of Python `s.find(c)`: first index or `-1`. -/
def pyFindChar (l : List Char) (c : Char) : ℤ :=
  match pyFindCharAux c l 0 with
  | some i => (i : ℤ)
  | none => -1

/-- Model of Python `s.rfind(c)`: last index or `-1`. -/
def pyRFindChar (l : List Char) (c : Char) : ℤ :=
  match pyFindCharAux c l.reverse 0 with
  | some i => ((l.length - 1 - i : ℕ) : ℤ)
  | none => -1

/-- Lines 143-147 of `ollama_integration.py`: locate the first `{` and the
last `}`; when `json_start >= 0 and json_end > json_start`, the slice
`response[json_start:json_end]` is handed to `json.loads`. -/
def extract_json_str (response : List Char) : Option (List Char) :=
  let js := pyFindChar response '\x7b'
  let je := pyRFindChar response '\x7d' + 1
  if 0 ≤ js ∧ js < je then
    some ((response.drop js.toNat).take (je - js).toNat)
  else none

/-- Lines 151-155: a digit-only string is coerced to an int
(`segment_id.isdigit()`), then a positive int is decremented (1-based to
0-based).  JSON `true` is an `int` instance to Python, so `True > 0` holds
and `True - 1` gives `0`; `False` fails the `> 0` test and stays a bool. -/
def coerce_segment_id (v : JValue) : JValue :=
  let v1 := match v with
    | JValue.jstr s =>
      if !s.isEmpty && s.all Char.isDigit then JValue.jint (digitsVal s) else JValue.jstr s
    | w => w
  match v1 with
  | .jint i => if i > 0 then .jint (i - 1) else .jint i
  | .jbool true => .jint 0
  | w => w

/-- Line 158's guard `segment_id is not None and 0 <= segment_id < len(segments)`
together with the `segments[segment_id]` subscript: ints (and Python's
int-like bools) inside `[0, n)` index the list; every other value either
fails the comparison, is `None`, or raises `TypeError` in the comparison or
subscript — all of which end in the keyword fallback. -/
def valid_index (v : JValue) (n : ℕ) : Option ℕ :=
  match v with
  | .jint i => if 0 ≤ i ∧ i < (n : ℤ) then some i.toNat else none
  | .jbool b =>
    let i : ℤ := if b then 1 else 0
    if 0 ≤ i ∧ i < (n : ℤ) then some i.toNat else none
  | _ => none

/-- The response-processing block of `find_answer_in_transcript` (lines
140-178): extract the brace-delimited slice, `json.loads` it, resolve
`best_segment_id`; any failure (no bounds, parse error, non-dict result,
unusable or out-of-range id, subscript error) falls back to
`_fallback_keyword_matching`. -/
def find_answer_core (segments : List Segment) (question : String)
    (response : String) : FindResult :=
  match extract_json_str response.toList with
  | none => fallback_keyword_matching segments question
  | some js =>
    match json_loads js with
    | some (.jobj o) =>
      let sid := coerce_segment_id ((jlookup o "best_segment_id").getD (.jint 0))
      match valid_index sid segments.length with
      | some i =>
        match segments[i]? with
        | some seg =>
          { matched_segment := some seg
            confidence := (jlookup o "confidence").getD (.jfloat (7 / 10))
            reasoning := (jlookup o "reasoning").getD (.jstr [])
            question_analysis := (jlookup o "question_analysis").getD (.jstr [])
            match_method := "semantic"
            original_response := some response }
        | none => fallback_keyword_matching segments question
      | none => fallback_keyword_matching segments question
    | some _ => fallback_keyword_matching segments question
    | none => fallback_keyword_matching segments question

/-- The per-segment context line
`f"Segment {i+1} [Time: {start} - {end}]: {text}\n\n"`. -/
def context_line (i : ℕ) (seg : Segment) : List Char :=
  "Segment ".toList ++ natDigits (i + 1) ++ " [Time: ".toList ++ seg.start.toList ++
    " - ".toList ++ seg.stop.toList ++ "]: ".toList ++ seg.text.toList ++ "\n\n".toList

/-- The `context` accumulation of lines 107-109. -/
def build_context (segments : List Segment) : List Char :=
  "Transcript segments:\n\n".toList ++
    (segments.enum.foldl (fun acc p => acc ++ context_line p.1 p.2) [])

/-- The `system_prompt` literal of lines 112-116. -/
def system_prompt_text : String :=
  "\n        You are an AI assistant helping to find the most relevant segment from a transcript that answers a user's question.\n        Analyze each segment carefully and choose the ONE most relevant segment that best answers the question.\n        Provide your reasoning and explain why this segment is the best match.\n        "

/-- The `prompt` f-string of lines 118-134 (literal braces written as hex
escapes). -/
def build_prompt (segments : List Segment) (question : String) : String :=
  String.mk
    ("\n        Question: ".toList ++ question.toList ++ "\n        \n        ".toList ++
      build_context segments ++
      "\n        \n        Based on the transcript segments above, identify the segment that best answers the question.\n        Return your answer in the following structured JSON format without any additional commentary:\n        \n        \x7b\n            \"best_segment_id\": <segment number>,\n            \"confidence\": <float between 0 and 1>,\n            \"reasoning\": \"<explain why this segment answers the question>\",\n            \"question_analysis\": \"<brief analysis of the key information being sought>\"\n        \x7d\n        \n        Only return the JSON object, nothing else.\n        ".toList)

/-- `OllamaClient.find_answer_in_transcript` (lines 77-178).  The network
round trip `self.generate(prompt, system_prompt)` is abstracted as the
`generate` oracle (the source's `generate` returns `""` on any transport
error, which is one possible oracle behaviour).  An absent `"segments"` key
defaults to `[]` (`transcript_data.get("segments", [])`), and an empty list
short-circuits to the "no segments" result before any request is issued. -/
def find_answer_in_transcript (generate : String → String → String)
    (data : TranscriptData) (question : String) : FindResult :=
  let segments := data.segments.getD []
  if segments.isEmpty then
    { matched_segment := none
      confidence := .jfloat 0
      reasoning := .jstr "No transcript segments were found to analyze.".toList
      question_analysis := .jstr []
      match_method := "semantic"
      original_response := none }
  else
    find_answer_core segments question
      (generate (build_prompt segments question) system_prompt_text)

/-! ## The retrieval endpoints of `main.py`

The HTTP layer, file persistence and wall-clock echoes are outside the model:
a loaded `TranscriptData` stands for the transcript JSON file, `Except.error`
carries the `HTTPException`/`ValueError` the endpoint raises, and the
`datetime.now()` field of the request echo is omitted.  The flag
`useSemantic` stands for the guard `OLLAMA_AVAILABLE and use_llm`. -/

/-- The `metadata["timestamp"]` dict of `query_transcript` (lines 387-393). -/
structure QTsMeta where
  start_raw : String
  end_raw : String
  start_seconds : ℚ
  end_seconds : ℚ
  duration_seconds : ℚ

/-- The `metadata["request"]` echo (minus its `datetime.now()` field). -/
structure ReqMeta where
  file_id : String
  question : String
  use_llm : Bool
  language : Option String := none

/-- The response `metadata` mapping, flattened into optional fields (absent
dict keys are `none`). -/
structure QMeta where
  match_method : String
  reasoning : Option JValue := none
  question_analysis : Option JValue := none
  original_response : Option String := none
  timestamp : Option QTsMeta := none
  request : ReqMeta

/-- The `QuestionResult` response model of `main.py`. -/
structure QuestionResult where
  answer_segment : Option Segment
  start_time : Option ℚ
  end_time : Option ℚ
  text : String
  question_text : String
  confidence : JValue
  metadata : QMeta

/-- `main.py` `query_transcript` (lines 328-434): choose the matcher, convert
the winning segment's timestamps with the inline codec, assemble the
`QuestionResult`; any exception inside the handler (a `KeyError` from
`transcript_data["segments"]`, a `ValueError` from `int`/`float`) is caught
at line 432 and re-raised as HTTP 500. -/
def query_transcript (useSemantic : Bool) (generate : String → String → String)
    (fileId : String) (data : TranscriptData) (question : String) :
    Except String QuestionResult :=
  let step : Except String (Option Segment × JValue × QMeta) :=
    if useSemantic then
      let r := find_answer_in_transcript generate data question
      .ok (r.matched_segment, r.confidence,
        { match_method := r.match_method
          reasoning := some r.reasoning
          question_analysis := some r.question_analysis
          original_response := r.original_response
          request := { file_id := fileId, question := question, use_llm := useSemantic } })
    else
      match data.segments with
      | none => .error "HTTP 500: KeyError: segments"
      | some segs =>
        .ok (get_segment_by_question segs question, .jfloat (1 / 2),
          { match_method := "keyword"
            request := { file_id := fileId, question := question, use_llm := useSemantic } })
  match step with
  | .error e => .error e
  | .ok (segOpt, confidence, meta0) =>
    match segOpt with
    | some seg =>
      match parse_timestamp_inline seg.start, parse_timestamp_inline seg.stop with
      | some st, some et =>
        .ok { answer_segment := some seg
              start_time := some st
              end_time := some et
              text := seg.text
              question_text := question
              confidence := confidence
              metadata :=
                { meta0 with timestamp := some ⟨seg.start, seg.stop, st, et, et - st⟩ } }
      | _, _ => .error "HTTP 500: ValueError in timestamp conversion"
    | none =>
      .ok { answer_segment := none
            start_time := none
            end_time := none
            text := "No relevant answer found"
            question_text := question
            confidence := .jfloat 0
            metadata :=
              { match_method := if useSemantic then "semantic" else "keyword"
                request := { file_id := fileId, question := question, use_llm := useSemantic } } }

/-- `main.py` `query_transcript_audio` from line 510 on (the earlier stages —
upload handling and Whisper transcription of the spoken question — are IO and
enter the model as the already-transcribed `questionText`).  Line 511 rejects
an empty or whitespace-only transcribed question with a `ValueError` (HTTP
400); line 527 rejects an absent or empty segment list; the rest mirrors
`query_transcript` with errors surfaced as HTTP 400. -/
def query_transcript_audio (useSemantic : Bool) (generate : String → String → String)
    (fileId : String) (language : Option String) (data : TranscriptData)
    (questionText : String) : Except String QuestionResult :=
  if (stripWs questionText.toList).isEmpty then
    .error "HTTP 400: Question transcription was empty. Please speak clearly and try again."
  else
    match data.segments with
    | none => .error "HTTP 400: No segments found in transcript data"
    | some segs =>
      if segs.isEmpty then .error "HTTP 400: No segments found in transcript data"
      else
        let req : ReqMeta :=
          { file_id := fileId, question := questionText, use_llm := useSemantic
            language := language }
        let step : Option Segment × JValue × QMeta :=
          if useSemantic then
            let r := find_answer_in_transcript generate data questionText
            (r.matched_segment, r.confidence,
              { match_method := r.match_method
                reasoning := some r.reasoning
                question_analysis := some r.question_analysis
                original_response := r.original_response
                request := req })
          else
            (get_segment_by_question segs questionText, .jfloat (1 / 2),
              { match_method := "keyword", request := req })
        match step.1 with
        | some seg =>
          match parse_timestamp_inline seg.start, parse_timestamp_inline seg.stop with
          | some st, some et =>
            .ok { answer_segment := some seg
                  start_time := some st
                  end_time := some et
                  text := seg.text
                  question_text := questionText
                  confidence := step.2.1
                  metadata :=
                    { step.2.2 with timestamp := some ⟨seg.start, seg.stop, st, et, et - st⟩ } }
          | _, _ => .error "HTTP 400: Error parsing timestamps"
        | none =>
          .ok { answer_segment := none
                start_time := none
                end_time := none
                text := "No relevant answer found"
                question_text := questionText
                confidence := .jfloat 0
                metadata :=
                  { match_method := if useSemantic then "semantic" else "keyword"
                    request := req } }

/-! ## Audio extraction -/

/-- The `if end_ms > len(audio): end_ms = len(audio)` clamp shared by
`get_audio_segment` (line 697) and `find_and_extract_audio_answer`
(line 258). -/
def clamp_end (l : ℕ) (e : ℤ) : ℤ :=
  if e > (l : ℤ) then (l : ℤ) else e

/-- The `if start_ms >= buffer_ms: start_ms -= buffer_ms` padding step shared
by `get_audio_segment` (line 703) and `find_and_extract_audio_answer`
(line 263). -/
def pad_start (buffer_ms s : ℤ) : ℤ :=
  if s ≥ buffer_ms then s - buffer_ms else s

/-- The `if end_ms + buffer_ms <= len(audio): end_ms += buffer_ms` padding
step shared by `get_audio_segment` (line 706) and
`find_and_extract_audio_answer` (line 266). -/
def pad_end (l : ℕ) (buffer_ms e : ℤ) : ℤ :=
  if e + buffer_ms ≤ (l : ℤ) then e + buffer_ms else e

/-- The millisecond core of `main.py` `get_audio_segment` (lines 692-724) on
a decoded buffer of `l` milliseconds: clamp the end to the buffer length,
subtract the 500 ms padding from the start only when the start is at least
500 ms, add it to the end only when that stays within the buffer, reject a
collapsed range, reject a zero-length slice (pydub list-slice length).  The
returned pair is the sliced millisecond range, standing for the exported
bytes. -/
def get_audio_segment_ms (l : ℕ) (start_ms0 end_ms0 : ℤ) : Except String (ℤ × ℤ) :=
  let end_ms1 := clamp_end l end_ms0
  let start_ms1 := pad_start 500 start_ms0
  let end_ms2 := pad_end l 500 end_ms1
  if end_ms2 ≤ start_ms1 then
    .error "HTTP 400: Invalid segment boundaries"
  else if min end_ms2 (l : ℤ) - min (max start_ms1 0) (l : ℤ) ≤ 0 then
    .error "HTTP 400: Extracted segment has zero length"
  else
    .ok (start_ms1, end_ms2)

/-- `main.py` `get_audio_segment` (lines 639-724): validate the requested
seconds range (`start < 0` and `end <= start` are `ValueError`s → HTTP 400),
convert to milliseconds with `int(x * 1000)`, then run the millisecond
core. -/
def get_audio_segment (l : ℕ) (s e : ℚ) : Except String (ℤ × ℤ) :=
  if s < 0 then .error "HTTP 400: Invalid start time"
  else if e ≤ s then .error "HTTP 400: Invalid end time"
  else get_audio_segment_ms l (qtrunc (s * 1000)) (qtrunc (e * 1000))

/-- The `metadata["timestamp"]` dict written by
`find_and_extract_audio_answer` (lines 281-289), including the padded bounds
`start_ms / 1000` and `end_ms / 1000`. -/
structure XTsMeta where
  start_raw : String
  end_raw : String
  start_seconds : ℚ
  end_seconds : ℚ
  duration_seconds : ℚ
  start_with_buffer_seconds : ℚ
  end_with_buffer_seconds : ℚ

/-- The dict returned by `find_and_extract_audio_answer`, flattened.
`answer_timestamp` models the `answer_info["metadata"]["timestamp"]` entry
added on success; `audio_segment` models the exported bytes as the sliced
millisecond bounds; an absent dict key is `none`. -/
structure ExtractResult where
  answer_info : FindResult
  answer_timestamp : Option XTsMeta
  audio_segment : Option (ℤ × ℤ)
  audio_format : Option String
  start_time : Option ℚ
  end_time : Option ℚ
  error : Option String

/-- `OllamaClient.find_and_extract_audio_answer` (lines 180-309).  `audio`
models the original audio file: `none` when the file is missing or pydub
cannot decode it (the `FileNotFoundError` path), `some l` a decoded buffer of
`l` milliseconds.  On a match the segment timestamps are converted by the
inline codec (a `ValueError` there is caught by the outer `except` and
reported in the `error` key), the end is clamped to the buffer, the
`buffer_ms` padding applied one-sidedly at each boundary, and the slice
bounds with the unpadded `start_time`/`end_time` returned. -/
def find_and_extract_audio_answer (generate : String → String → String)
    (data : TranscriptData) (audio : Option ℕ) (question : String)
    (buffer_ms : ℤ) : ExtractResult :=
  let answer_info := find_answer_in_transcript generate data question
  match answer_info.matched_segment with
  | none =>
    { answer_info := answer_info, answer_timestamp := none, audio_segment := none
      audio_format := none, start_time := none, end_time := none, error := none }
  | some seg =>
    match parse_timestamp_inline seg.start, parse_timestamp_inline seg.stop with
    | some st, some et =>
      match audio with
      | none =>
        { answer_info := answer_info, answer_timestamp := none, audio_segment := none
          audio_format := none, start_time := none, end_time := none
          error := some "Audio file not found" }
      | some l =>
        let start_ms0 := qtrunc (st * 1000)
        let end_ms0 := qtrunc (et * 1000)
        let end_ms1 := clamp_end l end_ms0
        let start_ms1 := pad_start buffer_ms start_ms0
        let end_ms2 := pad_end l buffer_ms end_ms1
        { answer_info := answer_info
          answer_timestamp :=
            some ⟨seg.start, seg.stop, st, et, et - st,
              (start_ms1 : ℚ) / 1000, (end_ms2 : ℚ) / 1000⟩
          audio_segment := some (start_ms1, end_ms2)
          audio_format := some "wav"
          start_time := some st
          end_time := some et
          error := none }
    | _, _ =>
      { answer_info := answer_info, answer_timestamp := none, audio_segment := none
        audio_format := none, start_time := none, end_time := none
        error := some "ValueError in timestamp conversion" }

/-! ## Helper lemmas -/

/-- Scoring against an empty keyword list is zero. -/
theorem segment_score_nil (t : String) : segment_score [] t = 0 := rfl

/-- The selection loop never moves off `(None, 0)` when there are no
keywords. -/
theorem best_match_nil (segs : List Segment) : best_match [] segs = (none, 0) := by
  induction segs with
  | nil => rfl
  | cons s rest ih =>
    show List.foldl (match_step []) (match_step [] (none, 0) s) rest = (none, 0)
    rw [show match_step [] (none, 0) s = (none, 0) from rfl]
    exact ih

/-- With no keywords the keyword matcher declares no match. -/
theorem get_segment_by_question_no_keywords (segs : List Segment) (q : String)
    (h : extract_keywords q = []) : get_segment_by_question segs q = none := by
  simp [get_segment_by_question, h, best_match_nil]

/-- Truncating an exact integer is the identity. -/
theorem qtrunc_intCast (n : ℤ) : qtrunc ((n : ℤ) : ℚ) = n := by
  unfold qtrunc
  by_cases h : (0 : ℚ) ≤ (n : ℚ)
  · simp [h]
  · rw [if_neg h, ← Int.cast_neg, Int.floor_intCast, neg_neg]

/-- Delegation from the seconds-level extractor to the millisecond core once
the validations pass and the conversions are evaluated. -/
theorem get_audio_segment_eval (l : ℕ) (s e : ℚ) (ms0 ms1 : ℤ)
    (h1 : ¬s < 0) (h2 : ¬e ≤ s) (h3 : qtrunc (s * 1000) = ms0)
    (h4 : qtrunc (e * 1000) = ms1) :
    get_audio_segment l s e = get_audio_segment_ms l ms0 ms1 := by
  simp [get_audio_segment, h1, h2, h3, h4]

/-- ASCII case folding fixes whitespace characters. -/
theorem toLower_space (c : Char) (h : isSpaceChar c = true) : Char.toLower c = c := by
  simp only [isSpaceChar, Bool.or_eq_true, decide_eq_true_eq] at h
  rcases h with ((((h | h) | h) | h) | h) | h <;> subst h <;> decide

/-- Case folding a whitespace-only string is the identity. -/
theorem toLowerL_all_ws (l : List Char) (h : l.all isSpaceChar = true) :
    toLowerL l = l := by
  induction l with
  | nil => rfl
  | cons c rest ih =>
    simp only [List.all_cons, Bool.and_eq_true] at h
    show Char.toLower c :: toLowerL rest = c :: rest
    rw [toLower_space c h.1, ih h.2]

/-- Every character of a matching pattern occurs in the scanned string. -/
theorem mem_of_isPrefixL (p s : List Char) (h : isPrefixL p s = true) :
    ∀ x ∈ p, x ∈ s := by
  induction p generalizing s with
  | nil => simp
  | cons a as ih =>
    match s with
    | [] => simp [isPrefixL] at h
    | b :: bs =>
      simp only [isPrefixL, Bool.and_eq_true, decide_eq_true_eq] at h
      intro x hx
      rcases List.mem_cons.mp hx with hx | hx
      · exact hx ▸ h.1 ▸ List.mem_cons_self _ _
      · exact List.mem_cons_of_mem _ (ih bs h.2 x hx)

/-- `str.replace` leaves a whitespace-only string unchanged when the pattern
contains a non-whitespace character. -/
theorem replaceAllAux_id_of_ws (pat rep : List Char) (c0 : Char)
    (hc0 : c0 ∈ pat) (hns : isSpaceChar c0 = false) :
    ∀ (f : ℕ) (s : List Char), s.all isSpaceChar = true →
      replaceAllAux pat rep f s = s := by
  intro f
  induction f with
  | zero => intro s _; rfl
  | succ f ih =>
    intro s hs
    match s with
    | [] => rfl
    | c :: rest =>
      simp only [List.all_cons, Bool.and_eq_true] at hs
      have hnp : ¬(pat ≠ [] ∧ isPrefixL pat (c :: rest) = true) := by
        rintro ⟨-, hpre⟩
        have := mem_of_isPrefixL pat (c :: rest) hpre c0 hc0
        have : isSpaceChar c0 = true := by
          rcases List.mem_cons.mp this with h | h
          · exact h ▸ hs.1
          · exact List.all_eq_true.mp hs.2 c0 h
        simp [hns] at this
      simp only [replaceAllAux]
      rw [if_neg hnp]
      exact congrArg (c :: ·) (ih rest hs.2)

/-- A fold of `str.replace` steps over patterns that each contain a
non-whitespace character leaves a whitespace-only string unchanged. -/
theorem foldl_replace_ws (l : List Char) (h : l.all isSpaceChar = true) :
    ∀ ws : List (List Char), (∀ w ∈ ws, ∃ c ∈ w, isSpaceChar c = false) →
      ws.foldl (fun s w => replaceAllL s (' ' :: (w ++ [' '])) [' ']) l = l := by
  intro ws
  induction ws with
  | nil => intro _; rfl
  | cons w ws ih =>
    intro hws
    obtain ⟨c0, hc0, hns⟩ := hws w (List.mem_cons_self _ _)
    have step : replaceAllL l (' ' :: (w ++ [' '])) [' '] = l :=
      replaceAllAux_id_of_ws _ _ c0
        (List.mem_cons_of_mem _ (List.mem_append_left _ hc0)) hns _ l h
    simp only [List.foldl_cons, step]
    exact ih (fun w hw => hws w (List.mem_cons_of_mem _ hw))

/-- The stop-word replacement loop leaves a whitespace-only question
unchanged: every stop-word pattern contains a letter. -/
theorem remove_question_words_ws (l : List Char) (h : l.all isSpaceChar = true) :
    remove_question_words l = l :=
  foldl_replace_ws l h question_words (by decide)

/-- Splitting a whitespace-only string on whitespace yields no tokens. -/
theorem splitWsL_all_ws (l : List Char) (h : l.all isSpaceChar = true) :
    splitWsL l = [] := by
  unfold splitWsL
  induction l with
  | nil => rfl
  | cons c rest ih =>
    simp only [List.all_cons, Bool.and_eq_true] at h
    simp [splitWsAux, h.1, ih h.2]

/-- A whitespace-only question yields no keywords. -/
theorem extract_keywords_ws (q : String) (h : q.toList.all isSpaceChar = true) :
    extract_keywords q = [] := by
  simp only [extract_keywords]
  rw [toLowerL_all_ws _ h, remove_question_words_ws _ h, splitWsL_all_ws _ h]
  rfl

/-- Stripping a whitespace-only string leaves nothing. -/
theorem stripWs_all_ws (l : List Char) (h : l.all isSpaceChar = true) :
    stripWs l = [] := by
  unfold stripWs
  rw [List.dropWhile_eq_nil_iff.mpr (fun x hx => List.all_eq_true.mp h x hx)]
  rfl

/-- Shared helper: in keyword mode a question with no keywords produces the
no-match `QuestionResult`. -/
theorem query_transcript_no_keywords (generate : String → String → String)
    (fileId : String) (data : TranscriptData) (segs : List Segment) (q : String)
    (hseg : data.segments = some segs) (hkw : extract_keywords q = []) :
    query_transcript false generate fileId data q =
      .ok { answer_segment := none
            start_time := none
            end_time := none
            text := "No relevant answer found"
            question_text := q
            confidence := .jfloat 0
            metadata :=
              { match_method := "keyword"
                request := { file_id := fileId, question := q, use_llm := false } } } := by
  simp [query_transcript, hseg, get_segment_by_question_no_keywords segs q hkw]

/-! ## Claim C10 -/

/-- Claim C10: for every transcript whose segment list is empty or absent,
`find_answer_in_transcript` returns `matched_segment = None`,
`confidence = 0.0` and `match_method = "semantic"` without issuing any
request to the semantic backend — the result is the same fixed record for
every oracle `generate`, which is exactly independence from the backend's
behaviour. -/
theorem claim_C10 (generate : String → String → String) (data : TranscriptData)
    (q : String) (h : data.segments = none ∨ data.segments = some []) :
    find_answer_in_transcript generate data q =
      { matched_segment := none
        confidence := .jfloat 0
        reasoning := .jstr "No transcript segments were found to analyze.".toList
        question_analysis := .jstr []
        match_method := "semantic"
        original_response := none } := by
  rcases h with h | h <;> simp [find_answer_in_transcript, h]

/-- Witness for C10 at a concrete empty transcript and a concrete oracle. -/
theorem claim_C10_witness :
    find_answer_in_transcript (fun _ _ => "\x7b\"best_segment_id\": 1\x7d")
        ⟨some []⟩ "when is lunch" =
      { matched_segment := none
        confidence := .jfloat 0
        reasoning := .jstr "No transcript segments were found to analyze.".toList
        question_analysis := .jstr []
        match_method := "semantic"
        original_response := none } :=
  claim_C10 (fun _ _ => "\x7b\"best_segment_id\": 1\x7d") ⟨some []⟩ "when is lunch"
    (Or.inr rfl)

/-! ## Claim C8 -/

/-- Claim C8: with semantic matching disabled, a question whose stop-word
stripping and length-filter yield zero keywords produces the no-match
`QuestionResult` — segment absent, confidence `0`, text
`"No relevant answer found"` — on every transcript whose segment list is
present, rather than matching an arbitrary segment. -/
theorem claim_C8 (generate : String → String → String) (fileId : String)
    (data : TranscriptData) (segs : List Segment) (q : String)
    (hseg : data.segments = some segs) (hkw : extract_keywords q = []) :
    query_transcript false generate fileId data q =
      .ok { answer_segment := none
            start_time := none
            end_time := none
            text := "No relevant answer found"
            question_text := q
            confidence := .jfloat 0
            metadata :=
              { match_method := "keyword"
                request := { file_id := fileId, question := q, use_llm := false } } } :=
  query_transcript_no_keywords generate fileId data segs q hseg hkw

/-- Witness for C8 at the spec's example question `"is it?"` (which yields no
keywords) on a concrete two-segment transcript. -/
theorem claim_C8_witness :
    extract_keywords "is it?" = [] ∧
    query_transcript false (fun _ _ => "") "file7"
        ⟨some [⟨0, "0:00:00", "0:00:05", "The weather today is sunny"⟩]⟩ "is it?" =
      .ok { answer_segment := none
            start_time := none
            end_time := none
            text := "No relevant answer found"
            question_text := "is it?"
            confidence := .jfloat 0
            metadata :=
              { match_method := "keyword"
                request := { file_id := "file7", question := "is it?", use_llm := false } } } :=
  ⟨by decide,
    claim_C8 (fun _ _ => "") "file7"
      ⟨some [⟨0, "0:00:00", "0:00:05", "The weather today is sunny"⟩]⟩
      [⟨0, "0:00:00", "0:00:05", "The weather today is sunny"⟩] "is it?" rfl (by decide)⟩

/-! ## Claim C7 -/

/-- Counterexample to claim C7: the text-question endpoint `query_transcript`
never validates question emptiness — the empty question in keyword mode flows
through matching and returns the silent no-match result (HTTP 200), not a
validation error. -/
theorem claim_C7_counterexample :
    query_transcript false (fun _ _ => "") "f1"
        ⟨some [⟨0, "0:00:00", "0:00:05", "hello world"⟩]⟩ "" =
      .ok { answer_segment := none
            start_time := none
            end_time := none
            text := "No relevant answer found"
            question_text := ""
            confidence := .jfloat 0
            metadata :=
              { match_method := "keyword"
                request := { file_id := "f1", question := "", use_llm := false } } } :=
  query_transcript_no_keywords (fun _ _ => "") "f1"
    ⟨some [⟨0, "0:00:00", "0:00:05", "hello world"⟩]⟩
    [⟨0, "0:00:00", "0:00:05", "hello world"⟩] "" rfl (by decide)

/-- Claim C7 as amended: only the audio-question endpoint
`query_transcript_audio` rejects an empty or whitespace-only question as a
validation error (HTTP 400); the text endpoint `query_transcript` performs no
emptiness validation and, in keyword mode, treats such a question as the
silent no-match result. -/
theorem claim_C7_amended :
    (∀ (useSem : Bool) (generate : String → String → String) (fileId : String)
        (lang : Option String) (data : TranscriptData) (qt : String),
        qt.toList.all isSpaceChar = true →
        query_transcript_audio useSem generate fileId lang data qt =
          .error "HTTP 400: Question transcription was empty. Please speak clearly and try again.") ∧
    (∀ (generate : String → String → String) (fileId : String)
        (data : TranscriptData) (segs : List Segment) (q : String),
        data.segments = some segs → q.toList.all isSpaceChar = true →
        query_transcript false generate fileId data q =
          .ok { answer_segment := none
                start_time := none
                end_time := none
                text := "No relevant answer found"
                question_text := q
                confidence := .jfloat 0
                metadata :=
                  { match_method := "keyword"
                    request := { file_id := fileId, question := q, use_llm := false } } }) := by
  constructor
  · intro useSem generate fileId lang data qt hws
    have h0 : stripWs qt.toList = [] := stripWs_all_ws _ hws
    unfold query_transcript_audio
    rw [h0]
    rfl
  · intro generate fileId data segs q hseg hws
    exact query_transcript_no_keywords generate fileId data segs q hseg
      (extract_keywords_ws q hws)

/-- Witness for the amended C7: the whitespace-only question `" "` is
rejected by the audio endpoint and silently unmatched by the text
endpoint. -/
theorem claim_C7_witness :
    query_transcript_audio true (fun _ _ => "") "f2" none
        ⟨some [⟨0, "0:00:00", "0:00:05", "hello world"⟩]⟩ " " =
      .error "HTTP 400: Question transcription was empty. Please speak clearly and try again." ∧
    query_transcript false (fun _ _ => "") "f2"
        ⟨some [⟨0, "0:00:00", "0:00:05", "hello world"⟩]⟩ " " =
      .ok { answer_segment := none
            start_time := none
            end_time := none
            text := "No relevant answer found"
            question_text := " "
            confidence := .jfloat 0
            metadata :=
              { match_method := "keyword"
                request := { file_id := "f2", question := " ", use_llm := false } } } :=
  ⟨claim_C7_amended.1 true (fun _ _ => "") "f2" none
      ⟨some [⟨0, "0:00:00", "0:00:05", "hello world"⟩]⟩ " " (by decide),
    claim_C7_amended.2 (fun _ _ => "") "f2"
      ⟨some [⟨0, "0:00:00", "0:00:05", "hello world"⟩]⟩
      [⟨0, "0:00:00", "0:00:05", "hello world"⟩] " " rfl (by decide)⟩

/-! ## Claim C2 -/

/-- First segment of the spec's end-to-end scenario transcript. -/
def seg_weather : Segment := ⟨0, "0:00:00", "0:00:05", "The weather today is sunny"⟩

/-- Second segment of the spec's end-to-end scenario transcript. -/
def seg_medication : Segment := ⟨1, "0:00:05", "0:00:10", "Remember to take your medication at noon"⟩

/-- Claim C2: on the two-segment scenario transcript, the question
`"when should I take medication"` in keyword-only mode selects the second
segment with `start_seconds = 5.0` and `end_seconds = 10.0`, and audio
extraction against a 10-second (10000 ms) buffer with the 0.5 s padding
returns exactly the 4.5 s – 10.0 s slice (start padded, end clamped to the
buffer with no overshoot). -/
theorem claim_C2 :
    query_transcript false (fun _ _ => "") "rec1" ⟨some [seg_weather, seg_medication]⟩
        "when should I take medication" =
      .ok { answer_segment := some seg_medication
            start_time := some 5
            end_time := some 10
            text := "Remember to take your medication at noon"
            question_text := "when should I take medication"
            confidence := .jfloat (1 / 2)
            metadata :=
              { match_method := "keyword"
                timestamp := some ⟨"0:00:05", "0:00:10", 5, 10, 5⟩
                request :=
                  { file_id := "rec1", question := "when should I take medication"
                    use_llm := false } } } ∧
    get_audio_segment 10000 5 10 = .ok (4500, 10000) := by
  have hmatch :
      get_segment_by_question [seg_weather, seg_medication]
        "when should I take medication" = some seg_medication := by decide
  have h5 : parse_timestamp_inline "0:00:05" = some 5 :=
    parse_timestamp_inline_eq _ (.fields3 0 0 ⟨1, 5, 0, 0, 0⟩) _ (by decide)
      (by norm_num [TsParse.val, FloatLit.val])
  have h10 : parse_timestamp_inline "0:00:10" = some 10 :=
    parse_timestamp_inline_eq _ (.fields3 0 0 ⟨1, 10, 0, 0, 0⟩) _ (by decide)
      (by norm_num [TsParse.val, FloatLit.val])
  constructor
  · simp only [query_transcript, Bool.false_eq_true, if_false, hmatch]
    rw [show seg_medication.start = "0:00:05" from rfl,
      show seg_medication.stop = "0:00:10" from rfl, h5, h10]
    norm_num
    rfl
  · have e1 : qtrunc ((5 : ℚ) * 1000) = 5000 := by
      rw [show ((5 : ℚ) * 1000) = ((5000 : ℤ) : ℚ) by norm_num, qtrunc_intCast]
    have e2 : qtrunc ((10 : ℚ) * 1000) = 10000 := by
      rw [show ((10 : ℚ) * 1000) = ((10000 : ℤ) : ℚ) by norm_num, qtrunc_intCast]
    rw [get_audio_segment_eval 10000 5 10 5000 10000 (by norm_num) (by norm_num) e1 e2]
    rfl

/-! ## Claim C3 -/

/-- Counterexample to claim C3: the one-field string `"5"` has a field count
other than 2 or 3, yet the conversion does not fail — it silently yields the
untouched initial value `0` (the claim demanded a `MalformedTimestamp`
failure rather than a value). -/
theorem claim_C3_counterexample :
    splitOnCharL ':' "5".toList = [['5']] ∧ parse_timestamp_inline "5" = some 0 :=
  ⟨by decide, parse_timestamp_inline_eq _ .otherFieldCount _ (by decide) rfl⟩

/-- Shape of the three-field branch. -/
theorem parse_timestamp_shape_eq3 (s : String) (a b c : List Char) (h m : ℤ)
    (fl : FloatLit) (hsplit : splitOnCharL ':' s.toList = [a, b, c])
    (hh : pyInt a = some h) (hm : pyInt b = some m)
    (hfl : pyFloatParts c = some fl) :
    parse_timestamp_shape s = some (.fields3 h m fl) := by
  unfold parse_timestamp_shape
  rw [hsplit]
  simp [hh, hm, hfl]

/-- Shape of the two-field branch. -/
theorem parse_timestamp_shape_eq2 (s : String) (a b : List Char) (m : ℤ)
    (fl : FloatLit) (hsplit : splitOnCharL ':' s.toList = [a, b])
    (hm : pyInt a = some m) (hfl : pyFloatParts b = some fl) :
    parse_timestamp_shape s = some (.fields2 m fl) := by
  unfold parse_timestamp_shape
  rw [hsplit]
  simp [hm, hfl]

/-- Shape of the silent default branch. -/
theorem parse_timestamp_shape_default (s : String)
    (h3 : (splitOnCharL ':' s.toList).length ≠ 3)
    (h2 : (splitOnCharL ':' s.toList).length ≠ 2) :
    parse_timestamp_shape s = some .otherFieldCount := by
  unfold parse_timestamp_shape
  generalize hg : splitOnCharL ':' s.toList = parts at h3 h2
  simp [h3, h2]

/-- A failing component in the three-field branch raises. -/
theorem parse_timestamp_shape_fail3 (s : String) (a b c : List Char)
    (hsplit : splitOnCharL ':' s.toList = [a, b, c])
    (hfail : pyInt a = none ∨ pyInt b = none ∨ pyFloatParts c = none) :
    parse_timestamp_shape s = none := by
  unfold parse_timestamp_shape
  rw [hsplit]
  rcases hx : pyInt a with - | x <;> rcases hy : pyInt b with - | y <;>
    rcases hz : pyFloatParts c with - | z <;> simp_all

/-- A failing component in the two-field branch raises. -/
theorem parse_timestamp_shape_fail2 (s : String) (a b : List Char)
    (hsplit : splitOnCharL ':' s.toList = [a, b])
    (hfail : pyInt a = none ∨ pyFloatParts b = none) :
    parse_timestamp_shape s = none := by
  unfold parse_timestamp_shape
  rw [hsplit]
  rcases hx : pyInt a with - | x <;> rcases hz : pyFloatParts b with - | z <;> simp_all

/-- Claim C3 as amended: with exactly 3 colon-separated fields whose
components convert under `int`/`int`/`float` the result is
`hours*3600 + minutes*60 + seconds`, with 2 such fields it is
`minutes*60 + seconds` (seconds fractional-capable); a component rejected by
`int`/`float` in those two shapes raises an error; but any other field count
silently yields `0` seconds instead of failing. -/
theorem claim_C3_amended (s : String) :
    (∀ (a b c : List Char) (h m : ℤ) (sec : ℚ),
      splitOnCharL ':' s.toList = [a, b, c] →
      pyInt a = some h → pyInt b = some m → pyFloat c = some sec →
      parse_timestamp_inline s = some ((h : ℚ) * 3600 + (m : ℚ) * 60 + sec)) ∧
    (∀ (a b : List Char) (m : ℤ) (sec : ℚ),
      splitOnCharL ':' s.toList = [a, b] →
      pyInt a = some m → pyFloat b = some sec →
      parse_timestamp_inline s = some ((m : ℚ) * 60 + sec)) ∧
    ((splitOnCharL ':' s.toList).length ≠ 3 → (splitOnCharL ':' s.toList).length ≠ 2 →
      parse_timestamp_inline s = some 0) ∧
    (∀ a b c : List Char, splitOnCharL ':' s.toList = [a, b, c] →
      pyInt a = none ∨ pyInt b = none ∨ pyFloatParts c = none →
      parse_timestamp_inline s = none) ∧
    (∀ a b : List Char, splitOnCharL ':' s.toList = [a, b] →
      pyInt a = none ∨ pyFloatParts b = none →
      parse_timestamp_inline s = none) := by
  refine ⟨?_, ?_, ?_, ?_, ?_⟩
  · intro a b c h m sec hsplit hh hm hsec
    obtain ⟨fl, hfl, hflv⟩ := Option.map_eq_some'.mp hsec
    exact parse_timestamp_inline_eq s (.fields3 h m fl) _
      (parse_timestamp_shape_eq3 s a b c h m fl hsplit hh hm hfl)
      (by simp [TsParse.val, hflv])
  · intro a b m sec hsplit hm hsec
    obtain ⟨fl, hfl, hflv⟩ := Option.map_eq_some'.mp hsec
    exact parse_timestamp_inline_eq s (.fields2 m fl) _
      (parse_timestamp_shape_eq2 s a b m fl hsplit hm hfl)
      (by simp [TsParse.val, hflv])
  · intro h3 h2
    exact parse_timestamp_inline_eq s .otherFieldCount _
      (parse_timestamp_shape_default s h3 h2) rfl
  · intro a b c hsplit hfail
    exact parse_timestamp_inline_none (parse_timestamp_shape_fail3 s a b c hsplit hfail)
  · intro a b hsplit hfail
    exact parse_timestamp_inline_none (parse_timestamp_shape_fail2 s a b hsplit hfail)

/-- Witness for the amended C3: the three shapes at `"1:02:03.5"` (value
`3723.5`), `"5"` (silent `0`) and `"0:00:xx"` (failure). -/
theorem claim_C3_witness :
    parse_timestamp_inline "1:02:03.5" = some (3723 + 1 / 2) ∧
    parse_timestamp_inline "5" = some 0 ∧
    parse_timestamp_inline "0:00:xx" = none := by
  have hfl : pyFloat "03.5".toList = some (7 / 2) := by
    rw [pyFloat, show pyFloatParts "03.5".toList = some ⟨1, 3, 5, 1, 0⟩ from by decide]
    simp [FloatLit.val]
    norm_num
  refine ⟨?_, ?_, ?_⟩
  · have := (claim_C3_amended "1:02:03.5").1 "1".toList "02".toList "03.5".toList 1 2 (7 / 2)
      (by decide) (by decide) (by decide) hfl
    rw [this]
    norm_num
  · exact (claim_C3_amended "5").2.2.1 (by decide) (by decide)
  · exact (claim_C3_amended "0:00:xx").2.2.2.1 "0".toList "00".toList "xx".toList
      (by decide) (Or.inr (Or.inr (by decide)))

/-! ## Claim C4 -/

/-- Specification gadget for stating timestamp-independence: replace a
segment's `start`/`stop` strings by arbitrary functions of the segment while
keeping its id and text. -/
def retime (f g : Segment → String) (s : Segment) : Segment :=
  ⟨s.id, f s, g s, s.text⟩

/-- The selection fold commutes with timestamp replacement: scoring reads
only segment texts. -/
theorem foldl_match_step_retime (f g : Segment → String) (kws : List (List Char)) :
    ∀ (segs : List Segment) (a : Option Segment) (a' : Option Segment) (n : ℕ),
      a' = a.map (retime f g) →
      (segs.map (retime f g)).foldl (match_step kws) (a', n) =
        ((segs.foldl (match_step kws) (a, n)).1.map (retime f g),
          (segs.foldl (match_step kws) (a, n)).2) := by
  intro segs
  induction segs with
  | nil => intro a a' n ha; simp [ha]
  | cons s rest ih =>
    intro a a' n ha
    rw [List.map_cons, List.foldl_cons, List.foldl_cons]
    by_cases hs : segment_score kws s.text > n
    · have e1 : match_step kws (a', n) (retime f g s) =
          (some (retime f g s), segment_score kws s.text) := by
        simp [match_step, retime, hs]
      have e2 : match_step kws (a, n) s = (some s, segment_score kws s.text) := by
        simp [match_step, hs]
      rw [e1, e2]
      exact ih (some s) _ _ rfl
    · have e1 : match_step kws (a', n) (retime f g s) = (a', n) := by
        simp [match_step, retime, hs]
      have e2 : match_step kws (a, n) s = (a, n) := by
        simp [match_step, hs]
      rw [e1, e2]
      exact ih a a' n ha

/-- The keyword matcher's choice is independent of the timestamp strings. -/
theorem get_segment_by_question_retime (f g : Segment → String)
    (segs : List Segment) (q : String) :
    get_segment_by_question (segs.map (retime f g)) q =
      (get_segment_by_question segs q).map (retime f g) := by
  have key := foldl_match_step_retime f g (extract_keywords q) segs none none 0 rfl
  simp only [get_segment_by_question, best_match, key]
  by_cases hp : (segs.foldl (match_step (extract_keywords q)) (none, 0)).2 > 0 <;>
    simp [hp]

/-- Counterexample to claim C4: in the transcript
`[{start: "a:b", end: "0:00:05", text: "take medication today"}]` the first
segment's `start` does not parse, yet the keyword matcher still selects it
(it is not excluded from candidate matching), and the query then fails with
HTTP 500 rather than completing normally. -/
theorem claim_C4_counterexample :
    get_segment_by_question [⟨0, "a:b", "0:00:05", "take medication today"⟩]
        "medication" = some ⟨0, "a:b", "0:00:05", "take medication today"⟩ ∧
    query_transcript false (fun _ _ => "") "f3"
        ⟨some [⟨0, "a:b", "0:00:05", "take medication today"⟩]⟩ "medication" =
      .error "HTTP 500: ValueError in timestamp conversion" := by
  constructor
  · decide
  · have hm : get_segment_by_question [⟨0, "a:b", "0:00:05", "take medication today"⟩]
        "medication" = some ⟨0, "a:b", "0:00:05", "take medication today"⟩ := by decide
    have hnone : parse_timestamp_inline "a:b" = none := parse_timestamp_inline_none (by decide)
    simp [query_transcript, hm, hnone]

/-- Claim C4 as amended: a segment whose timestamps are malformed is *not*
excluded from candidate matching — the matcher's selection is invariant under
arbitrary replacement of every segment's timestamp strings — and when the
*matched* segment's `start` (or `end`) string raises in the inline
conversion, the whole keyword-mode query fails with HTTP 500 instead of
completing normally. -/
theorem claim_C4_amended :
    (∀ (f g : Segment → String) (segs : List Segment) (q : String),
      get_segment_by_question (segs.map (retime f g)) q =
        (get_segment_by_question segs q).map (retime f g)) ∧
    (∀ (generate : String → String → String) (fileId : String)
        (data : TranscriptData) (segs : List Segment) (q : String) (seg : Segment),
      data.segments = some segs → get_segment_by_question segs q = some seg →
      parse_timestamp_inline seg.start = none →
      query_transcript false generate fileId data q =
        .error "HTTP 500: ValueError in timestamp conversion") ∧
    (∀ (generate : String → String → String) (fileId : String)
        (data : TranscriptData) (segs : List Segment) (q : String) (seg : Segment)
        (v : ℚ),
      data.segments = some segs → get_segment_by_question segs q = some seg →
      parse_timestamp_inline seg.start = some v →
      parse_timestamp_inline seg.stop = none →
      query_transcript false generate fileId data q =
        .error "HTTP 500: ValueError in timestamp conversion") := by
  refine ⟨get_segment_by_question_retime, ?_, ?_⟩
  · intro generate fileId data segs q seg hseg hmatch hparse
    simp [query_transcript, hseg, hmatch, hparse]
  · intro generate fileId data segs q seg v hseg hmatch hparse1 hparse2
    simp [query_transcript, hseg, hmatch, hparse1, hparse2]

/-- Witness for the amended C4: timestamp replacement on the scenario
transcript does not change the selection, and the malformed-start transcript
makes the query fail. -/
theorem claim_C4_witness :
    get_segment_by_question
        ([seg_weather, seg_medication].map (retime (fun _ => "x") (fun _ => "y")))
        "when should I take medication" =
      (get_segment_by_question [seg_weather, seg_medication]
        "when should I take medication").map (retime (fun _ => "x") (fun _ => "y")) ∧
    query_transcript false (fun _ _ => "") "f3"
        ⟨some [⟨0, "a:b", "0:00:05", "take medication today"⟩]⟩ "medication" =
      .error "HTTP 500: ValueError in timestamp conversion" :=
  ⟨claim_C4_amended.1 (fun _ => "x") (fun _ => "y") [seg_weather, seg_medication]
      "when should I take medication",
    claim_C4_amended.2.1 (fun _ _ => "") "f3"
      ⟨some [⟨0, "a:b", "0:00:05", "take medication today"⟩]⟩
      [⟨0, "a:b", "0:00:05", "take medication today"⟩] "medication"
      ⟨0, "a:b", "0:00:05", "take medication today"⟩ rfl (by decide)
      (parse_timestamp_inline_none (by decide))⟩

/-! ## Claim C1 -/

/-- Counterexample to claim C1: on a one-segment transcript the response
`"{}"` parses, has *no* `best_segment_id`, and the claim demands the
keyword-fallback result — but the code defaults the missing id to `0`, which
passes the `0 <= segment_id < len(segments)` check, so the first segment is
returned as a *semantic* match (default confidence 0.7), not the fallback. -/
theorem claim_C1_counterexample :
    find_answer_in_transcript (fun _ _ => "\x7b\x7d")
        ⟨some [⟨0, "0:00:00", "0:00:05", "hello"⟩]⟩ "test" =
      { matched_segment := some ⟨0, "0:00:00", "0:00:05", "hello"⟩
        confidence := .jfloat (7 / 10)
        reasoning := .jstr []
        question_analysis := .jstr []
        match_method := "semantic"
        original_response := some "\x7b\x7d" } ∧
    find_answer_in_transcript (fun _ _ => "\x7b\x7d")
        ⟨some [⟨0, "0:00:00", "0:00:05", "hello"⟩]⟩ "test" ≠
      fallback_keyword_matching [⟨0, "0:00:00", "0:00:05", "hello"⟩] "test" := by
  refine ⟨rfl, fun h => absurd (congrArg FindResult.match_method h) ?_⟩
  decide

/-- Claim C1 as amended: with `n ≥ 1` segments, `find_answer_in_transcript`
never raises, and it returns the keyword-fallback result when the response
has no `{`..`}` bounds, when the extracted slice fails to parse or parses to
a non-object, or when `best_segment_id` is a negative integer or an integer
above `n`; but a *missing* `best_segment_id` (or an explicit `0`) is treated
as index `0` and yields the *first segment as a semantic match* rather than
the fallback, and an integer id in `[1, n]` yields segment `id - 1` as a
semantic match. -/
theorem claim_C1_amended (segs : List Segment) (q resp : String) (hne : segs ≠ []) :
    (extract_json_str resp.toList = none →
      find_answer_in_transcript (fun _ _ => resp) ⟨some segs⟩ q =
        fallback_keyword_matching segs q) ∧
    (∀ js, extract_json_str resp.toList = some js → json_loads js = none →
      find_answer_in_transcript (fun _ _ => resp) ⟨some segs⟩ q =
        fallback_keyword_matching segs q) ∧
    (∀ js v, extract_json_str resp.toList = some js → json_loads js = some v →
      (∀ o, v ≠ .jobj o) →
      find_answer_in_transcript (fun _ _ => resp) ⟨some segs⟩ q =
        fallback_keyword_matching segs q) ∧
    (∀ js o, extract_json_str resp.toList = some js → json_loads js = some (.jobj o) →
      (jlookup o "best_segment_id" = none ∨
        jlookup o "best_segment_id" = some (.jint 0)) →
      find_answer_in_transcript (fun _ _ => resp) ⟨some segs⟩ q =
        { matched_segment := segs[0]?
          confidence := (jlookup o "confidence").getD (.jfloat (7 / 10))
          reasoning := (jlookup o "reasoning").getD (.jstr [])
          question_analysis := (jlookup o "question_analysis").getD (.jstr [])
          match_method := "semantic"
          original_response := some resp }) ∧
    (∀ js o (i : ℤ), extract_json_str resp.toList = some js →
      json_loads js = some (.jobj o) →
      jlookup o "best_segment_id" = some (.jint i) → i < 0 →
      find_answer_in_transcript (fun _ _ => resp) ⟨some segs⟩ q =
        fallback_keyword_matching segs q) ∧
    (∀ js o (i : ℤ), extract_json_str resp.toList = some js →
      json_loads js = some (.jobj o) →
      jlookup o "best_segment_id" = some (.jint i) → (segs.length : ℤ) < i →
      find_answer_in_transcript (fun _ _ => resp) ⟨some segs⟩ q =
        fallback_keyword_matching segs q) ∧
    (∀ js o (i : ℤ), extract_json_str resp.toList = some js →
      json_loads js = some (.jobj o) →
      jlookup o "best_segment_id" = some (.jint i) → 1 ≤ i →
      i ≤ (segs.length : ℤ) →
      find_answer_in_transcript (fun _ _ => resp) ⟨some segs⟩ q =
        { matched_segment := segs[(i - 1).toNat]?
          confidence := (jlookup o "confidence").getD (.jfloat (7 / 10))
          reasoning := (jlookup o "reasoning").getD (.jstr [])
          question_analysis := (jlookup o "question_analysis").getD (.jstr [])
          match_method := "semantic"
          original_response := some resp }) := by
  obtain ⟨s0, rest, rfl⟩ := List.exists_cons_of_ne_nil hne
  have hr : find_answer_in_transcript (fun _ _ => resp) ⟨some (s0 :: rest)⟩ q =
      find_answer_core (s0 :: rest) q resp := rfl
  rw [hr]
  have hlen : ((s0 :: rest).length : ℤ) = (rest.length : ℤ) + 1 := by
    simp only [List.length_cons]
    push_cast
    ring
  refine ⟨?_, ?_, ?_, ?_, ?_, ?_, ?_⟩
  · intro hext
    unfold find_answer_core
    rw [hext]
  · intro js hext hload
    unfold find_answer_core
    simp only [hext, hload]
  · intro js v hext hload hno
    unfold find_answer_core
    rcases v with - | b | n | qq | str | xs | o
    · simp only [hext, hload]
    · simp only [hext, hload]
    · simp only [hext, hload]
    · simp only [hext, hload]
    · simp only [hext, hload]
    · simp only [hext, hload]
    · exact absurd rfl (hno o)
  · intro js o hext hload hlk
    have hv : valid_index
        (coerce_segment_id ((jlookup o "best_segment_id").getD (.jint 0)))
        (s0 :: rest).length = some 0 := by
      have hcz : (0 : ℤ) ≤ 0 ∧ (0 : ℤ) < ((s0 :: rest).length : ℤ) := by
        rw [hlen]
        omega
      rcases hlk with h0 | h0 <;> rw [h0]
      · show valid_index (coerce_segment_id (.jint 0)) (s0 :: rest).length = some 0
        rw [show coerce_segment_id (.jint 0) = .jint 0 from rfl]
        show (if (0 : ℤ) ≤ 0 ∧ (0 : ℤ) < ((s0 :: rest).length : ℤ)
          then some (0 : ℤ).toNat else none) = some 0
        rw [if_pos hcz]
        rfl
      · show valid_index (coerce_segment_id (.jint 0)) (s0 :: rest).length = some 0
        rw [show coerce_segment_id (.jint 0) = .jint 0 from rfl]
        show (if (0 : ℤ) ≤ 0 ∧ (0 : ℤ) < ((s0 :: rest).length : ℤ)
          then some (0 : ℤ).toNat else none) = some 0
        rw [if_pos hcz]
        rfl
    unfold find_answer_core
    simp only [hext, hload, hv, List.getElem?_cons_zero]
  · intro js o i hext hload hlk hi
    have h1 : ¬i > 0 := by omega
    have hv : valid_index
        (coerce_segment_id ((jlookup o "best_segment_id").getD (.jint 0)))
        (s0 :: rest).length = none := by
      rw [hlk]
      show valid_index (coerce_segment_id (.jint i)) (s0 :: rest).length = none
      rw [show coerce_segment_id (.jint i) = .jint i from by
        simp [coerce_segment_id, h1]]
      show (if (0 : ℤ) ≤ i ∧ i < ((s0 :: rest).length : ℤ)
        then some i.toNat else none) = none
      rw [if_neg]
      omega
    unfold find_answer_core
    simp only [hext, hload, hv]
  · intro js o i hext hload hlk hi
    rw [hlen] at hi
    have h1 : i > 0 := by omega
    have hv : valid_index
        (coerce_segment_id ((jlookup o "best_segment_id").getD (.jint 0)))
        (s0 :: rest).length = none := by
      rw [hlk]
      show valid_index (coerce_segment_id (.jint i)) (s0 :: rest).length = none
      rw [show coerce_segment_id (.jint i) = .jint (i - 1) from by
        simp [coerce_segment_id, h1]]
      show (if (0 : ℤ) ≤ i - 1 ∧ i - 1 < ((s0 :: rest).length : ℤ)
        then some (i - 1).toNat else none) = none
      rw [if_neg]
      rw [hlen]
      omega
    unfold find_answer_core
    simp only [hext, hload, hv]
  · intro js o i hext hload hlk hi1 hi2
    rw [hlen] at hi2
    have h1 : i > 0 := by omega
    have hv : valid_index
        (coerce_segment_id ((jlookup o "best_segment_id").getD (.jint 0)))
        (s0 :: rest).length = some (i - 1).toNat := by
      rw [hlk]
      show valid_index (coerce_segment_id (.jint i)) (s0 :: rest).length =
        some (i - 1).toNat
      rw [show coerce_segment_id (.jint i) = .jint (i - 1) from by
        simp [coerce_segment_id, h1]]
      show (if (0 : ℤ) ≤ i - 1 ∧ i - 1 < ((s0 :: rest).length : ℤ)
        then some (i - 1).toNat else none) = some (i - 1).toNat
      rw [if_pos]
      rw [hlen]
      omega
    have hlt : (i - 1).toNat < (s0 :: rest).length := by
      simp only [List.length_cons]
      omega
    rcases hget : (s0 :: rest)[(i - 1).toNat]? with - | seg
    · rw [List.getElem?_eq_none_iff] at hget
      omega
    · unfold find_answer_core
      simp only [hext, hload, hv, hget]

/-- Witness for the amended C1: a brace-free response falls back to keyword
matching, and a parsed `"{}"` (missing id) returns the first segment as a
semantic match. -/
theorem claim_C1_witness :
    find_answer_in_transcript (fun _ _ => "no json here")
        ⟨some [⟨0, "0:00:00", "0:00:05", "hello"⟩]⟩ "test" =
      fallback_keyword_matching [⟨0, "0:00:00", "0:00:05", "hello"⟩] "test" ∧
    find_answer_in_transcript (fun _ _ => "\x7b\x7d")
        ⟨some [⟨0, "0:00:00", "0:00:05", "hello"⟩]⟩ "test" =
      { matched_segment := [(⟨0, "0:00:00", "0:00:05", "hello"⟩ : Segment)][0]?
        confidence := (jlookup [] "confidence").getD (.jfloat (7 / 10))
        reasoning := (jlookup [] "reasoning").getD (.jstr [])
        question_analysis := (jlookup [] "question_analysis").getD (.jstr [])
        match_method := "semantic"
        original_response := some "\x7b\x7d" } :=
  ⟨(claim_C1_amended [⟨0, "0:00:00", "0:00:05", "hello"⟩] "test" "no json here"
      (by decide)).1 (by decide),
    (claim_C1_amended [⟨0, "0:00:00", "0:00:05", "hello"⟩] "test" "\x7b\x7d"
      (by decide)).2.2.2.1 "\x7b\x7d".toList [] (by decide) rfl (Or.inl rfl)⟩

/-! ## Claim C6 -/

/-- Truncation of a non-negative rational is its floor and is non-negative. -/
theorem qtrunc_nonneg (q : ℚ) (h : 0 ≤ q) : 0 ≤ qtrunc q := by
  simp only [qtrunc, if_pos h]
  exact Int.floor_nonneg.mpr h

/-- Truncation of a non-negative rational does not exceed it. -/
theorem qtrunc_le (q : ℚ) (h : 0 ≤ q) : (qtrunc q : ℚ) ≤ q := by
  simp only [qtrunc, if_pos h]
  exact Int.floor_le q

/-- The clamped end never exceeds the buffer length. -/
theorem clamp_end_le (l : ℕ) (e : ℤ) : clamp_end l e ≤ (l : ℤ) := by
  unfold clamp_end
  split_ifs <;> omega

/-- The padded end stays within the buffer when the unpadded end does. -/
theorem pad_end_le (l : ℕ) (b e : ℤ) (h : e ≤ (l : ℤ)) : pad_end l b e ≤ (l : ℤ) := by
  unfold pad_end
  split_ifs <;> omega

/-- Start padding never produces a negative offset. -/
theorem pad_start_nonneg (s : ℤ) (h : 0 ≤ s) : 0 ≤ pad_start 500 s := by
  unfold pad_start
  split_ifs <;> omega

/-- Start padding never moves the start later. -/
theorem pad_start_le (b s : ℤ) (hb : 0 ≤ b) : pad_start b s ≤ s := by
  unfold pad_start
  split_ifs <;> omega

/-- Success form of the millisecond core: when the padded range is
non-collapsed, the extractor returns exactly the padded bounds. -/
theorem get_audio_segment_ms_ok (l : ℕ) (S E : ℤ) (hS : 0 ≤ S)
    (hgt : pad_start 500 S < pad_end l 500 (clamp_end l E)) :
    get_audio_segment_ms l S E = .ok (pad_start 500 S, pad_end l 500 (clamp_end l E)) := by
  have h1 : 0 ≤ pad_start 500 S := pad_start_nonneg S hS
  have h2 : pad_end l 500 (clamp_end l E) ≤ (l : ℤ) :=
    pad_end_le l 500 _ (clamp_end_le l E)
  unfold get_audio_segment_ms
  rw [if_neg (not_le.mpr hgt), if_neg (by omega)]

/-- Failure form of the millisecond core: a collapsed padded range raises. -/
theorem get_audio_segment_ms_err (l : ℕ) (S E : ℤ)
    (hle : pad_end l 500 (clamp_end l E) ≤ pad_start 500 S) :
    get_audio_segment_ms l S E = .error "HTTP 400: Invalid segment boundaries" := by
  unfold get_audio_segment_ms
  rw [if_pos hle]

/-- Claim C6: for a requested range `[start, end)` with `0 ≤ start < end`
against a buffer of `l` milliseconds and padding `0.5 s`: after the end is
clamped to the buffer, the start is reduced by the padding only when that
stays `≥ 0` and the end is increased only when that stays `≤ l` — every
successful extraction returns exactly these one-sidedly padded bounds, which
lie inside the buffer; a request starting at `0` (of at least one millisecond
against a non-empty buffer) succeeds with a clip starting at exactly `0`; and
a request ending exactly at the buffer duration succeeds with a clip ending
at exactly the buffer duration.  No error is raised in either boundary
case. -/
theorem claim_C6 (l : ℕ) (s e : ℚ) (hs : 0 ≤ s) (hse : s < e) :
    (∀ a b : ℤ, get_audio_segment l s e = .ok (a, b) →
      a = pad_start 500 (qtrunc (s * 1000)) ∧
      b = pad_end l 500 (clamp_end l (qtrunc (e * 1000))) ∧ 0 ≤ a ∧ b ≤ (l : ℤ)) ∧
    (s = 0 → 1 ≤ qtrunc (e * 1000) → 1 ≤ l →
      get_audio_segment l s e =
        .ok (0, pad_end l 500 (clamp_end l (qtrunc (e * 1000))))) ∧
    (e * 1000 = ((l : ℤ) : ℚ) →
      get_audio_segment l s e = .ok (pad_start 500 (qtrunc (s * 1000)), (l : ℤ))) := by
  have h1 : ¬s < 0 := not_lt.mpr hs
  have h2 : ¬e ≤ s := not_le.mpr hse
  have hS0 : 0 ≤ qtrunc (s * 1000) := qtrunc_nonneg _ (by positivity)
  have heval : get_audio_segment l s e =
      get_audio_segment_ms l (qtrunc (s * 1000)) (qtrunc (e * 1000)) :=
    get_audio_segment_eval l s e _ _ h1 h2 rfl rfl
  refine ⟨?_, ?_, ?_⟩
  · intro a b hok
    rw [heval] at hok
    by_cases hgt : pad_start 500 (qtrunc (s * 1000)) <
        pad_end l 500 (clamp_end l (qtrunc (e * 1000)))
    · rw [get_audio_segment_ms_ok l _ _ hS0 hgt] at hok
      simp only [Except.ok.injEq, Prod.mk.injEq] at hok
      obtain ⟨ha, hb⟩ := hok
      have hp1 : 0 ≤ pad_start 500 (qtrunc (s * 1000)) := pad_start_nonneg _ hS0
      have hp2 : pad_end l 500 (clamp_end l (qtrunc (e * 1000))) ≤ (l : ℤ) :=
        pad_end_le l 500 _ (clamp_end_le l _)
      exact ⟨ha.symm, hb.symm, by omega, by omega⟩
    · rw [get_audio_segment_ms_err l _ _ (by omega)] at hok
      exact (Except.noConfusion hok)
  · intro hs0 hE hl
    subst hs0
    have hq0 : qtrunc ((0 : ℚ) * 1000) = 0 := by
      rw [show ((0 : ℚ) * 1000) = ((0 : ℤ) : ℚ) by norm_num, qtrunc_intCast]
    have hps : pad_start 500 (qtrunc ((0 : ℚ) * 1000)) = 0 := by
      rw [hq0]
      rfl
    have hE1 : 1 ≤ clamp_end l (qtrunc (e * 1000)) := by
      unfold clamp_end
      have hl' : (1 : ℤ) ≤ (l : ℤ) := by exact_mod_cast hl
      split_ifs <;> omega
    have hgt : pad_start 500 (qtrunc ((0 : ℚ) * 1000)) <
        pad_end l 500 (clamp_end l (qtrunc (e * 1000))) := by
      rw [hps]
      unfold pad_end
      split_ifs <;> omega
    rw [heval, get_audio_segment_ms_ok l _ _ hS0 hgt, hps]
  · intro hend
    have hqE : qtrunc (e * 1000) = (l : ℤ) := by
      rw [hend, qtrunc_intCast]
    have hclamp : clamp_end l (qtrunc (e * 1000)) = (l : ℤ) := by
      rw [hqE]
      unfold clamp_end
      split_ifs <;> omega
    have hpe : pad_end l 500 (clamp_end l (qtrunc (e * 1000))) = (l : ℤ) := by
      rw [hclamp]
      unfold pad_end
      split_ifs <;> omega
    have hSlt : qtrunc (s * 1000) < (l : ℤ) := by
      have hle1 : (qtrunc (s * 1000) : ℚ) ≤ s * 1000 := qtrunc_le _ (by positivity)
      have hlt2 : s * 1000 < ((l : ℤ) : ℚ) := by
        rw [← hend]
        have : (0 : ℚ) < 1000 := by norm_num
        exact (mul_lt_mul_right this).mpr hse
      exact_mod_cast lt_of_le_of_lt hle1 hlt2
    have hgt : pad_start 500 (qtrunc (s * 1000)) <
        pad_end l 500 (clamp_end l (qtrunc (e * 1000))) := by
      rw [hpe]
      have := pad_start_le 500 (qtrunc (s * 1000)) (by norm_num)
      omega
    rw [heval, get_audio_segment_ms_ok l _ _ hS0 hgt, hpe]

/-- Witness for C6 at the concrete boundary inputs: a segment starting at 0
(clip starts at exactly 0) and a segment ending at the 10-second buffer
duration (clip ends at exactly 10000 ms). -/
theorem claim_C6_witness :
    (0 : ℚ) ≤ 0 ∧ (0 : ℚ) < 2 ∧
    get_audio_segment 10000 0 2 = .ok (0, pad_end 10000 500 (clamp_end 10000 (qtrunc (2 * 1000)))) ∧
    get_audio_segment 10000 5 10 = .ok (pad_start 500 (qtrunc ((5 : ℚ) * 1000)), (10000 : ℤ)) := by
  refine ⟨le_refl 0, by norm_num, ?_, ?_⟩
  · exact (claim_C6 10000 0 2 (le_refl 0) (by norm_num)).2.1 rfl
      (by rw [show ((2 : ℚ) * 1000) = ((2000 : ℤ) : ℚ) by norm_num, qtrunc_intCast]; omega)
      (by omega)
  · exact (claim_C6 10000 5 10 (by norm_num) (by norm_num)).2.2 (by norm_num)

/-! ## Claim C9 -/

/-- Claim C9: on every successful match-and-extract run, the returned
`start_time`/`end_time` are exactly the matched segment's parsed timestamps
with no padding applied; the 500 ms padding (applied after clamping the end
to the buffer, one-sidedly at each boundary) determines only which
millisecond range is sliced out of the audio; and the padded bounds are
reported only inside `metadata.timestamp` as `start_with_buffer_seconds` /
`end_with_buffer_seconds`. -/
theorem claim_C9 (generate : String → String → String) (data : TranscriptData)
    (l : ℕ) (q : String) (seg : Segment) (st et : ℚ)
    (hmatch : (find_answer_in_transcript generate data q).matched_segment = some seg)
    (hst : parse_timestamp_inline seg.start = some st)
    (het : parse_timestamp_inline seg.stop = some et) :
    find_and_extract_audio_answer generate data (some l) q 500 =
      { answer_info := find_answer_in_transcript generate data q
        answer_timestamp := some
          ⟨seg.start, seg.stop, st, et, et - st,
            ((pad_start 500 (qtrunc (st * 1000)) : ℤ) : ℚ) / 1000,
            ((pad_end l 500 (clamp_end l (qtrunc (et * 1000))) : ℤ) : ℚ) / 1000⟩
        audio_segment := some (pad_start 500 (qtrunc (st * 1000)),
          pad_end l 500 (clamp_end l (qtrunc (et * 1000))))
        audio_format := some "wav"
        start_time := some st
        end_time := some et
        error := none } := by
  unfold find_and_extract_audio_answer
  simp only [hmatch, hst, het]

/-- Witness for C9: a one-segment transcript, an oracle selecting segment 1,
and a 10-second buffer. -/
theorem claim_C9_witness :
    find_and_extract_audio_answer (fun _ _ => "\x7b\"best_segment_id\": 1\x7d")
        ⟨some [⟨0, "0:00:01", "0:00:02", "hello world"⟩]⟩ (some 10000) "greeting" 500 =
      { answer_info :=
          find_answer_in_transcript (fun _ _ => "\x7b\"best_segment_id\": 1\x7d")
            ⟨some [⟨0, "0:00:01", "0:00:02", "hello world"⟩]⟩ "greeting"
        answer_timestamp := some
          ⟨"0:00:01", "0:00:02", 1, 2, 2 - 1,
            ((pad_start 500 (qtrunc ((1 : ℚ) * 1000)) : ℤ) : ℚ) / 1000,
            ((pad_end 10000 500 (clamp_end 10000 (qtrunc ((2 : ℚ) * 1000))) : ℤ) : ℚ) / 1000⟩
        audio_segment := some (pad_start 500 (qtrunc ((1 : ℚ) * 1000)),
          pad_end 10000 500 (clamp_end 10000 (qtrunc ((2 : ℚ) * 1000))))
        audio_format := some "wav"
        start_time := some 1
        end_time := some 2
        error := none } :=
  claim_C9 (fun _ _ => "\x7b\"best_segment_id\": 1\x7d")
    ⟨some [⟨0, "0:00:01", "0:00:02", "hello world"⟩]⟩ 10000 "greeting"
    ⟨0, "0:00:01", "0:00:02", "hello world"⟩ 1 2 rfl
    (parse_timestamp_inline_eq _ (.fields3 0 0 ⟨1, 1, 0, 0, 0⟩) _ (by decide)
      (by norm_num [TsParse.val, FloatLit.val]))
    (parse_timestamp_inline_eq _ (.fields3 0 0 ⟨1, 2, 0, 0, 0⟩) _ (by decide)
      (by norm_num [TsParse.val, FloatLit.val]))

/-! ## Claim C5: digit-string lemmas -/

/-- Unfolding of the digit-value fold from an arbitrary accumulator. -/
theorem digitsVal_foldl (init : ℕ) (l : List Char) :
    l.foldl (fun a c => 10 * a + (c.toNat - 48)) init =
      init * 10 ^ l.length + digitsVal l := by
  induction l generalizing init with
  | nil => simp [digitsVal]
  | cons c r ih =>
    rw [List.foldl_cons]
    rw [ih (10 * init + (c.toNat - 48))]
    rw [show digitsVal (c :: r) = digitsVal [c] * 10 ^ r.length + digitsVal r from ?_]
    · simp only [digitsVal, List.foldl_cons, List.foldl_nil, List.length_cons]
      ring
    · rw [show digitsVal (c :: r) =
        List.foldl (fun a c => 10 * a + (c.toNat - 48)) (10 * 0 + (c.toNat - 48)) r from rfl]
      rw [ih (10 * 0 + (c.toNat - 48))]
      simp [digitsVal]

/-- Digit value of a concatenation. -/
theorem digitsVal_append (l1 l2 : List Char) :
    digitsVal (l1 ++ l2) = digitsVal l1 * 10 ^ l2.length + digitsVal l2 := by
  unfold digitsVal
  rw [List.foldl_append]
  exact digitsVal_foldl _ l2

/-- Leading zeros do not change the digit value. -/
theorem digitsVal_replicate_zero (k : ℕ) : digitsVal (List.replicate k '0') = 0 := by
  induction k with
  | zero => rfl
  | succ k ih =>
    rw [List.replicate_succ, show digitsVal ('0' :: List.replicate k '0') =
      List.foldl (fun a c => 10 * a + (c.toNat - 48)) (10 * 0 + ('0'.toNat - 48))
        (List.replicate k '0') from rfl]
    rw [digitsVal_foldl]
    simpa using ih

/-- Digit value after zero-padding. -/
theorem digitsVal_padZero (w : ℕ) (l : List Char) :
    digitsVal (padZero w l) = digitsVal l := by
  unfold padZero
  rw [digitsVal_append, digitsVal_replicate_zero]
  ring

/-- The characters produced by `Nat.digitChar` below 10 are decimal digits
with the expected value. -/
theorem digitChar_spec (d : ℕ) (hd : d < 10) :
    (Nat.digitChar d).isDigit = true ∧ (Nat.digitChar d).toNat - 48 = d := by
  interval_cases d <;> exact ⟨by decide, by decide⟩

/-- Fuel-independent specification of the digit renderer: digits only,
non-empty, and the digit value round-trips. -/
theorem natDigitsAux_spec (f : ℕ) :
    ∀ n, n < f → (natDigitsAux f n).all Char.isDigit = true ∧
      digitsVal (natDigitsAux f n) = n ∧ natDigitsAux f n ≠ [] := by
  induction f with
  | zero => intro n hn; omega
  | succ f ih =>
    intro n hn
    by_cases h10 : n < 10
    · have := digitChar_spec n h10
      refine ⟨?_, ?_, ?_⟩
      · simp [natDigitsAux, h10, this.1]
      · simp [natDigitsAux, h10, digitsVal, this.2]
      · simp [natDigitsAux, h10]
    · have hdiv : n / 10 < f := by omega
      obtain ⟨ha, hv, hne⟩ := ih (n / 10) hdiv
      have hd := digitChar_spec (n % 10) (Nat.mod_lt _ (by norm_num))
      refine ⟨?_, ?_, ?_⟩
      · simp only [natDigitsAux, h10, if_false, List.all_append, Bool.and_eq_true]
        exact ⟨ha, by simp [hd.1]⟩
      · simp only [natDigitsAux, h10, if_false]
        rw [digitsVal_append, hv]
        simp only [List.length_cons, List.length_nil, pow_one, digitsVal,
          List.foldl_cons, List.foldl_nil]
        rw [hd.2]
        omega
      · simp [natDigitsAux, h10]

/-- The digit renderer produces the digits of its argument. -/
theorem natDigits_spec (n : ℕ) :
    (natDigits n).all Char.isDigit = true ∧ digitsVal (natDigits n) = n ∧
      natDigits n ≠ [] :=
  natDigitsAux_spec (n + 1) n (Nat.lt_succ_self n)

/-- Digit-count bound for the renderer. -/
theorem natDigitsAux_length (f : ℕ) :
    ∀ n k, n < f → n < 10 ^ k → 1 ≤ k → (natDigitsAux f n).length ≤ k := by
  induction f with
  | zero => intro n k hn; omega
  | succ f ih =>
    intro n k hn hk h1
    by_cases h10 : n < 10
    · simp only [natDigitsAux, h10, if_true, List.length_cons, List.length_nil]
      omega
    · have hdiv : n / 10 < f := by omega
      have hk2 : 2 ≤ k := by
        by_contra hcon
        have : k = 1 := by omega
        subst this
        simp at hk
        omega
      have hkk : n / 10 < 10 ^ (k - 1) := by
        rw [Nat.div_lt_iff_lt_mul (by norm_num)]
        calc n < 10 ^ k := hk
        _ = 10 ^ (k - 1) * 10 := by
            rw [← pow_succ]
            congr 1
            omega
      have := ih (n / 10) (k - 1) hdiv hkk (by omega)
      simp only [natDigitsAux, h10, if_false, List.length_append, List.length_cons,
        List.length_nil]
      omega

/-- Length of the renderer's output for bounded inputs. -/
theorem natDigits_length (n k : ℕ) (hk : n < 10 ^ k) (h1 : 1 ≤ k) :
    (natDigits n).length ≤ k :=
  natDigitsAux_length (n + 1) n k (Nat.lt_succ_self n) hk h1

/-- Zero-padding to a width at least the current length gives that width. -/
theorem padZero_length (w : ℕ) (l : List Char) (h : l.length ≤ w) :
    (padZero w l).length = w := by
  unfold padZero
  rw [List.length_append, List.length_replicate]
  omega

/-- Zero-padding keeps the all-digits property. -/
theorem padZero_all_digits (w : ℕ) (l : List Char) (h : l.all Char.isDigit = true) :
    (padZero w l).all Char.isDigit = true := by
  unfold padZero
  rw [List.all_append, Bool.and_eq_true]
  refine ⟨?_, h⟩
  rw [List.all_eq_true]
  intro c hc
  rw [List.eq_of_mem_replicate hc]
  decide

/-- Zero-padding of a non-empty list is non-empty. -/
theorem padZero_ne_nil (w : ℕ) (l : List Char) (h : l ≠ []) : padZero w l ≠ [] := by
  unfold padZero
  intro hcon
  rcases List.append_eq_nil.mp hcon with ⟨-, h2⟩
  exact h h2

/-- A decimal digit is not whitespace. -/
theorem digit_not_space (c : Char) (h : c.isDigit = true) : isSpaceChar c = false := by
  by_contra hcon
  have hsp : isSpaceChar c = true := by
    cases hx : isSpaceChar c
    · exact absurd hx hcon
    · rfl
  simp only [isSpaceChar, Bool.or_eq_true, decide_eq_true_eq] at hsp
  rcases hsp with ((((h1 | h1) | h1) | h1) | h1) | h1 <;> subst h1 <;> simp at h
/-- A decimal digit is not a colon. -/
theorem digit_ne_colon (c : Char) (h : c.isDigit = true) : c ≠ ':' := by
  intro hcon
  subst hcon
  simp at h

/-- A decimal digit is not a sign character. -/
theorem digit_ne_sign (c : Char) (h : c.isDigit = true) : c ≠ '-' ∧ c ≠ '+' := by
  constructor <;> intro hcon <;> subst hcon <;> simp at h

/-- `dropWhile` is the identity when no character satisfies the predicate. -/
theorem dropWhile_eq_self_of_none (p : Char → Bool) (l : List Char)
    (h : ∀ c ∈ l, p c = false) : l.dropWhile p = l := by
  cases l with
  | nil => rfl
  | cons c r =>
    rw [List.dropWhile_cons, h c (List.mem_cons_self _ _)]
    simp

/-- Stripping is the identity on whitespace-free strings. -/
theorem stripWs_eq_self (l : List Char) (h : ∀ c ∈ l, isSpaceChar c = false) :
    stripWs l = l := by
  unfold stripWs
  rw [dropWhile_eq_self_of_none _ l h,
    dropWhile_eq_self_of_none _ l.reverse (fun c hc => h c (List.mem_reverse.mp hc)),
    List.reverse_reverse]

/-- `splitOnCharL` of a separator-free string is one field. -/
theorem splitOnCharL_no_sep (sep : Char) (l : List Char)
    (h : ∀ c ∈ l, c ≠ sep) : splitOnCharL sep l = [l] := by
  induction l with
  | nil => rfl
  | cons c r ih =>
    rw [splitOnCharL, if_neg (h c (List.mem_cons_self _ _)),
      ih (fun c hc => h c (List.mem_cons_of_mem _ hc))]

/-- `splitOnCharL` peels one separator-free field before a separator. -/
theorem splitOnCharL_append (sep : Char) (l1 l2 : List Char)
    (h : ∀ c ∈ l1, c ≠ sep) :
    splitOnCharL sep (l1 ++ sep :: l2) = l1 :: splitOnCharL sep l2 := by
  induction l1 with
  | nil =>
    simp only [List.nil_append]
    rw [splitOnCharL, if_pos rfl]
  | cons c r ih =>
    rw [List.cons_append, splitOnCharL, if_neg (h c (List.mem_cons_self _ _)),
      ih (fun c hc => h c (List.mem_cons_of_mem _ hc))]

/-- `takeWhile` over a run of satisfying characters followed by a
non-satisfying one. -/
theorem takeWhile_append_stop (p : Char → Bool) (l1 : List Char) (c : Char)
    (l2 : List Char) (h1 : ∀ x ∈ l1, p x = true) (hc : p c = false) :
    (l1 ++ c :: l2).takeWhile p = l1 := by
  induction l1 with
  | nil =>
    simp only [List.nil_append, List.takeWhile_cons, hc]
    simp
  | cons a r ih =>
    rw [List.cons_append, List.takeWhile_cons, h1 a (List.mem_cons_self _ _)]
    simp only [if_true]
    rw [ih (fun x hx => h1 x (List.mem_cons_of_mem _ hx))]

/-- `dropWhile` over a run of satisfying characters followed by a
non-satisfying one. -/
theorem dropWhile_append_stop (p : Char → Bool) (l1 : List Char) (c : Char)
    (l2 : List Char) (h1 : ∀ x ∈ l1, p x = true) (hc : p c = false) :
    (l1 ++ c :: l2).dropWhile p = c :: l2 := by
  induction l1 with
  | nil =>
    simp only [List.nil_append, List.dropWhile_cons, hc]
    simp
  | cons a r ih =>
    rw [List.cons_append, List.dropWhile_cons, h1 a (List.mem_cons_self _ _)]
    simp only [if_true]
    exact ih (fun x hx => h1 x (List.mem_cons_of_mem _ hx))

/-- `takeWhile` of an everywhere-satisfying list is the list. -/
theorem takeWhile_eq_self_of_all (p : Char → Bool) (l : List Char)
    (h : ∀ x ∈ l, p x = true) : l.takeWhile p = l := by
  induction l with
  | nil => rfl
  | cons a r ih =>
    rw [List.takeWhile_cons, h a (List.mem_cons_self _ _)]
    simp only [if_true]
    rw [ih (fun x hx => h x (List.mem_cons_of_mem _ hx))]

/-- `dropWhile` of an everywhere-satisfying list is empty. -/
theorem dropWhile_eq_nil_of_all (p : Char → Bool) (l : List Char)
    (h : ∀ x ∈ l, p x = true) : l.dropWhile p = [] := by
  induction l with
  | nil => rfl
  | cons a r ih =>
    rw [List.dropWhile_cons, h a (List.mem_cons_self _ _)]
    simp only [if_true]
    exact ih (fun x hx => h x (List.mem_cons_of_mem _ hx))

/-- `int()` on a non-empty all-digit string yields its digit value. -/
theorem pyInt_digits (l : List Char) (hne : l ≠ [])
    (hd : l.all Char.isDigit = true) : pyInt l = some ((digitsVal l : ℤ)) := by
  have hall := List.all_eq_true.mp hd
  have hstrip : stripWs l = l :=
    stripWs_eq_self l (fun c hc => digit_not_space c (hall c hc))
  have hemp : l.isEmpty = false := by
    cases l with
    | nil => exact absurd rfl hne
    | cons a r => rfl
  simp only [pyInt, hstrip]
  split
  · exact absurd (hall '-' (List.mem_cons_self _ _)) (by decide)
  · exact absurd (hall '+' (List.mem_cons_self _ _)) (by decide)
  · rw [if_pos]
    rw [hemp, hd]
    rfl

/-- The sign reader is inert when the first character is a digit. -/
theorem readSignZ_of_head_digit (c : Char) (r : List Char) (hc : c.isDigit = true) :
    readSignZ (c :: r) = (1, c :: r) := by
  obtain ⟨h1, h2⟩ := digit_ne_sign c hc
  simp only [readSignZ, if_neg h1, if_neg h2]

/-- `float()` scanning of a non-empty all-digit string. -/
theorem pyFloatParts_digits (l : List Char) (hne : l ≠ [])
    (hd : l.all Char.isDigit = true) :
    pyFloatParts l = some ⟨1, digitsVal l, 0, 0, 0⟩ := by
  have hall := List.all_eq_true.mp hd
  have hstrip : stripWs l = l :=
    stripWs_eq_self l (fun c hc => digit_not_space c (hall c hc))
  obtain ⟨c, r, rfl⟩ := List.exists_cons_of_ne_nil hne
  have hsign : readSignZ (c :: r) = (1, c :: r) :=
    readSignZ_of_head_digit c r (hall c (List.mem_cons_self _ _))
  have htw : (c :: r).takeWhile Char.isDigit = c :: r :=
    takeWhile_eq_self_of_all _ _ hall
  have hdw : (c :: r).dropWhile Char.isDigit = [] :=
    dropWhile_eq_nil_of_all _ _ hall
  simp only [pyFloatParts, hstrip, hsign, htw, hdw]
  rfl

/-- `float()` scanning of `digits.digits`. -/
theorem pyFloatParts_dotted (a b : List Char) (hna : a ≠ [])
    (hda : a.all Char.isDigit = true) (_hnb : b ≠ [])
    (hdb : b.all Char.isDigit = true) :
    pyFloatParts (a ++ '.' :: b) = some ⟨1, digitsVal a, digitsVal b, b.length, 0⟩ := by
  have halla := List.all_eq_true.mp hda
  have hallb := List.all_eq_true.mp hdb
  have hnw : ∀ c ∈ a ++ '.' :: b, isSpaceChar c = false := by
    intro c hc
    rcases List.mem_append.mp hc with h | h
    · exact digit_not_space c (halla c h)
    · rcases List.mem_cons.mp h with h | h
      · subst h
        decide
      · exact digit_not_space c (hallb c h)
  have hstrip : stripWs (a ++ '.' :: b) = a ++ '.' :: b := stripWs_eq_self _ hnw
  obtain ⟨c, r, rfl⟩ := List.exists_cons_of_ne_nil hna
  have hsign : readSignZ ((c :: r) ++ '.' :: b) = (1, (c :: r) ++ '.' :: b) :=
    readSignZ_of_head_digit c _ (halla c (List.mem_cons_self _ _))
  have htw : ((c :: r) ++ '.' :: b).takeWhile Char.isDigit = c :: r :=
    takeWhile_append_stop _ _ _ _ halla (by decide)
  have hdw : ((c :: r) ++ '.' :: b).dropWhile Char.isDigit = '.' :: b :=
    dropWhile_append_stop _ _ _ _ halla (by decide)
  have htwb : b.takeWhile Char.isDigit = b := takeWhile_eq_self_of_all _ _ hallb
  have hdwb : b.dropWhile Char.isDigit = [] := dropWhile_eq_nil_of_all _ _ hallb
  simp only [pyFloatParts, hstrip, hsign, htw, hdw, htwb, hdwb]
  rfl

/-- Round-half-even stays within half a unit of its argument. -/
theorem roundHalfEven_abs_le (q : ℚ) : |(roundHalfEven q : ℚ) - q| ≤ 1 / 2 := by
  have hfl : (⌊q⌋ : ℚ) ≤ q := Int.floor_le q
  have hfu : q < (⌊q⌋ : ℚ) + 1 := Int.lt_floor_add_one q
  simp only [roundHalfEven]
  split_ifs with h1 h2 h3 <;> rw [abs_le] <;> push_cast <;> constructor <;> linarith

/-- Round-half-even of a non-negative rational is non-negative. -/
theorem roundHalfEven_nonneg (q : ℚ) (h : 0 ≤ q) : 0 ≤ roundHalfEven q := by
  have hf : 0 ≤ ⌊q⌋ := Int.floor_nonneg.mpr h
  simp only [roundHalfEven]
  split_ifs <;> omega

/-- Evaluation of `timedelta.__str__` below one day: no day prefix, and the
`H:MM:SS[.ffffff]` fields carry the divmod components. -/
theorem formatMicro_of_lt (m : ℕ) (hm : m < 86400000000) :
    formatMicro (m : ℤ) =
      natDigits (m / 1000000 / 3600) ++ ':' ::
        (padZero 2 (natDigits ((m / 1000000 / 60) % 60)) ++ ':' ::
          (padZero 2 (natDigits (m / 1000000 % 60)) ++
            (if m % 1000000 ≠ 0 then '.' :: padZero 6 (natDigits (m % 1000000))
             else []))) := by
  have hd0 : (0 : ℤ) ≤ 86400000000 := by norm_num
  have hm0 : (0 : ℤ) ≤ (m : ℤ) := Int.natCast_nonneg m
  have hmlt : (m : ℤ) < 86400000000 := by exact_mod_cast hm
  have hdays : Int.fdiv (m : ℤ) 86400000000 = 0 := by
    rw [Int.fdiv_eq_ediv _ hd0]
    exact Int.ediv_eq_zero_of_lt hm0 hmlt
  have hrem : Int.fmod (m : ℤ) 86400000000 = (m : ℤ) := by
    rw [Int.fmod_eq_emod _ hd0]
    exact Int.emod_eq_of_lt hm0 hmlt
  unfold formatMicro
  rw [hdays, hrem]
  simp only [Int.toNat_natCast, ne_eq, ite_not]
  have hus : (m : ℤ).toNat % 1000000 = m % 1000000 := by
    rw [Int.toNat_natCast]
  by_cases h0 : m % 1000000 = 0
  · simp only [Int.toNat_natCast, h0, if_pos rfl, if_neg (by norm_num : ¬(0 : ℤ) ≠ 0)]
    simp [List.append_assoc]
  · simp only [Int.toNat_natCast, h0, if_neg h0, if_neg (by norm_num : ¬(0 : ℤ) ≠ 0)]
    simp [List.append_assoc]

/-- Core round-trip: parsing the sub-day rendering of `m` microseconds
recovers exactly `m / 10^6` seconds. -/
theorem parse_formatMicro (m : ℕ) (hm : m < 86400000000) :
    parse_timestamp_inline (String.mk (formatMicro (m : ℤ))) =
      some ((m : ℚ) / 1000000) := by
  obtain ⟨hHd, hHv, hHn⟩ := natDigits_spec (m / 1000000 / 3600)
  obtain ⟨hMd0, hMv0, hMn0⟩ := natDigits_spec ((m / 1000000 / 60) % 60)
  obtain ⟨hSd0, hSv0, hSn0⟩ := natDigits_spec (m / 1000000 % 60)
  obtain ⟨hFd0, hFv0, hFn0⟩ := natDigits_spec (m % 1000000)
  have hMd := padZero_all_digits 2 _ hMd0
  have hMn := padZero_ne_nil 2 _ hMn0
  have hMv : digitsVal (padZero 2 (natDigits ((m / 1000000 / 60) % 60))) =
      (m / 1000000 / 60) % 60 := by rw [digitsVal_padZero, hMv0]
  have hSd := padZero_all_digits 2 _ hSd0
  have hSn := padZero_ne_nil 2 _ hSn0
  have hSv : digitsVal (padZero 2 (natDigits (m / 1000000 % 60))) =
      m / 1000000 % 60 := by rw [digitsVal_padZero, hSv0]
  have hFd := padZero_all_digits 6 _ hFd0
  have hFn := padZero_ne_nil 6 _ hFn0
  have hFv : digitsVal (padZero 6 (natDigits (m % 1000000))) = m % 1000000 := by
    rw [digitsVal_padZero, hFv0]
  have hFlen : (padZero 6 (natDigits (m % 1000000))).length = 6 :=
    padZero_length 6 _ (natDigits_length _ 6 (Nat.mod_lt _ (by norm_num)) (by norm_num))
  have hHcf : ∀ c ∈ natDigits (m / 1000000 / 3600), c ≠ ':' :=
    fun c hc => digit_ne_colon c (List.all_eq_true.mp hHd c hc)
  have hMcf : ∀ c ∈ padZero 2 (natDigits ((m / 1000000 / 60) % 60)), c ≠ ':' :=
    fun c hc => digit_ne_colon c (List.all_eq_true.mp hMd c hc)
  have hScf : ∀ c ∈ padZero 2 (natDigits (m / 1000000 % 60)), c ≠ ':' :=
    fun c hc => digit_ne_colon c (List.all_eq_true.mp hSd c hc)
  have htl : (String.mk (formatMicro (m : ℤ))).toList = formatMicro (m : ℤ) := rfl
  have harith : (m / 1000000 / 3600) * 3600 + ((m / 1000000 / 60) % 60) * 60 +
      m / 1000000 % 60 = m / 1000000 := by omega
  by_cases h0 : m % 1000000 = 0
  · have hfm := formatMicro_of_lt m hm
    rw [if_neg (by simpa using h0), List.append_nil] at hfm
    have hsplit : splitOnCharL ':' (String.mk (formatMicro (m : ℤ))).toList =
        [natDigits (m / 1000000 / 3600),
          padZero 2 (natDigits ((m / 1000000 / 60) % 60)),
          padZero 2 (natDigits (m / 1000000 % 60))] := by
      rw [htl, hfm, splitOnCharL_append _ _ _ hHcf, splitOnCharL_append _ _ _ hMcf,
        splitOnCharL_no_sep _ _ hScf]
    have hshape := parse_timestamp_shape_eq3 (String.mk (formatMicro (m : ℤ)))
      _ _ _ _ _ _ hsplit (pyInt_digits _ hHn hHd) (pyInt_digits _ hMn hMd)
      (pyFloatParts_digits _ hSn hSd)
    refine parse_timestamp_inline_eq _ _ _ hshape ?_
    simp only [TsParse.val, FloatLit.val, hHv, hMv, hSv]
    rw [eq_div_iff (by norm_num : (1000000 : ℚ) ≠ 0)]
    have key : ((m / 1000000 / 3600) * 3600 + ((m / 1000000 / 60) % 60) * 60 +
        m / 1000000 % 60) * 1000000 = m := by omega
    have key2 : ((((m / 1000000 / 3600) * 3600 + ((m / 1000000 / 60) % 60) * 60 +
        m / 1000000 % 60) * 1000000 : ℕ) : ℚ) = ((m : ℕ) : ℚ) := by exact_mod_cast key
    simp only [Int.cast_natCast]
    push_cast at key2 ⊢
    norm_num
    linarith [key2]
  · have hfm := formatMicro_of_lt m hm
    rw [if_pos h0] at hfm
    have hRcf : ∀ c ∈ padZero 2 (natDigits (m / 1000000 % 60)) ++
        '.' :: padZero 6 (natDigits (m % 1000000)), c ≠ ':' := by
      intro c hc
      rcases List.mem_append.mp hc with h | h
      · exact hScf c h
      · rcases List.mem_cons.mp h with h | h
        · subst h
          decide
        · exact digit_ne_colon c (List.all_eq_true.mp hFd c h)
    have hsplit : splitOnCharL ':' (String.mk (formatMicro (m : ℤ))).toList =
        [natDigits (m / 1000000 / 3600),
          padZero 2 (natDigits ((m / 1000000 / 60) % 60)),
          padZero 2 (natDigits (m / 1000000 % 60)) ++
            '.' :: padZero 6 (natDigits (m % 1000000))] := by
      rw [htl, hfm, splitOnCharL_append _ _ _ hHcf, splitOnCharL_append _ _ _ hMcf,
        splitOnCharL_no_sep _ _ hRcf]
    have hfl := pyFloatParts_dotted _ _ hSn hSd hFn hFd
    rw [hSv, hFv, hFlen] at hfl
    have hshape := parse_timestamp_shape_eq3 (String.mk (formatMicro (m : ℤ)))
      _ _ _ _ _ _ hsplit (pyInt_digits _ hHn hHd) (pyInt_digits _ hMn hMd) hfl
    refine parse_timestamp_inline_eq _ _ _ hshape ?_
    simp only [TsParse.val, FloatLit.val, hHv, hMv]
    rw [eq_div_iff (by norm_num : (1000000 : ℚ) ≠ 0)]
    have key : ((m / 1000000 / 3600) * 3600 + ((m / 1000000 / 60) % 60) * 60 +
        m / 1000000 % 60) * 1000000 + m % 1000000 = m := by omega
    have key2 : ((((m / 1000000 / 3600) * 3600 + ((m / 1000000 / 60) % 60) * 60 +
        m / 1000000 % 60) * 1000000 + m % 1000000 : ℕ) : ℚ) = ((m : ℕ) : ℚ) := by
      exact_mod_cast key
    simp only [Int.cast_natCast]
    push_cast at key2 ⊢
    norm_num
    have hcancel : ((m % 1000000 : ℕ) : ℚ) / 1000000 * 1000000 = ((m % 1000000 : ℕ) : ℚ) := by
      field_simp
    linarith [key2, hcancel]

/-- Counterexample to claim C5: at `t = 86400` (24 hours, a valid seconds
value with `t ≥ 0`) the formatter emits `"1 day, 0:00:00"`, whose first
colon-field `"1 day, 0"` is not numeric — parsing raises instead of
returning a value within `1e-3` of `t`. -/
theorem claim_C5_counterexample :
    (0 : ℚ) ≤ 86400 ∧
    formatTimedelta 86400 = String.mk "1 day, 0:00:00".toList ∧
    parse_timestamp_inline (formatTimedelta 86400) = none := by
  have hfmt : formatTimedelta 86400 = String.mk (formatMicro 86400000000) := by
    unfold formatTimedelta
    rw [show (86400 : ℚ) * 1000000 = ((86400000000 : ℤ) : ℚ) by norm_num,
      roundHalfEven_intCast]
  refine ⟨by norm_num, ?_, ?_⟩
  · rw [hfmt]
    rfl
  · rw [hfmt]
    exact parse_timestamp_inline_none (by decide)

/-- Claim C5 as amended: for every seconds value `0 ≤ t ≤ 86399.999` (below
the 24-hour mark by at least the tolerance), formatting with
`str(timedelta(seconds=t))` and parsing the result back yields a value within
`1e-3` of `t` (in fact within half a microsecond); at and beyond 24 hours the
rendering carries a day prefix and no longer parses. -/
theorem claim_C5_amended (t : ℚ) (h0 : 0 ≤ t) (h1 : t ≤ 86399999 / 1000) :
    ∃ v : ℚ, parse_timestamp_inline (formatTimedelta t) = some v ∧
      |v - t| ≤ 1 / 1000 := by
  have habs := roundHalfEven_abs_le (t * 1000000)
  have hu0 : 0 ≤ roundHalfEven (t * 1000000) :=
    roundHalfEven_nonneg _ (by positivity)
  have habs1 := (abs_le.mp habs).1
  have habs2 := (abs_le.mp habs).2
  have hub : roundHalfEven (t * 1000000) < 86400000000 := by
    have h3 : ((roundHalfEven (t * 1000000) : ℤ) : ℚ) < 86400000000 := by linarith
    exact_mod_cast h3
  have hmu : ((roundHalfEven (t * 1000000)).toNat : ℤ) = roundHalfEven (t * 1000000) :=
    Int.toNat_of_nonneg hu0
  have hmlt : (roundHalfEven (t * 1000000)).toNat < 86400000000 := by omega
  have hfmt : formatTimedelta t =
      String.mk (formatMicro (((roundHalfEven (t * 1000000)).toNat : ℕ) : ℤ)) := by
    unfold formatTimedelta
    rw [hmu]
  refine ⟨((roundHalfEven (t * 1000000)).toNat : ℚ) / 1000000, ?_, ?_⟩
  · rw [hfmt]
    exact parse_formatMicro _ hmlt
  · have hmq : (((roundHalfEven (t * 1000000)).toNat : ℕ) : ℚ) =
        ((roundHalfEven (t * 1000000) : ℤ) : ℚ) := by exact_mod_cast hmu
    rw [hmq, abs_le]
    constructor <;> linarith

/-- Witness for the amended C5 at `t = 5.5`, together with the hypotheses
discharged. -/
theorem claim_C5_witness :
    (0 : ℚ) ≤ 11 / 2 ∧ (11 / 2 : ℚ) ≤ 86399999 / 1000 ∧
    ∃ v : ℚ, parse_timestamp_inline (formatTimedelta (11 / 2)) = some v ∧
      |v - 11 / 2| ≤ 1 / 1000 :=
  ⟨by norm_num, by norm_num, claim_C5_amended (11 / 2) (by norm_num) (by norm_num)⟩

end HearClear
